import Mathlib

/-!
# WGLMakie `Lines.js`: instanced wide lines

A shallow embedding of `src/WGLMakie/src/Lines.js`:

* `create_line_geometry` (JavaScript, lines 163-202): the copy loop that fills
  the instance buffer `points`, the quad template and the two interleaved
  attributes `instanceStart` / `instanceEnd`;
* the vertex shader `LINES_VERT` (GLSL, lines 5-125) with `trimSegment`;
* the fragment shader `LINES_FRAG` (GLSL, lines 127-152).

Numbers.  The copy loop only moves values, so the numbers of the position array
are an arbitrary type `α`; a cell of a `Float32Array` holds such a number or the
NaN that storing `undefined` produces.  The position array is taken to hold
float32 values already (the store conversion is the identity on them).  The
shader arithmetic is exact arithmetic in a linear ordered field `K`, with the
square root used by `normalize` passed as a function `sqrt : K → K`.
-/

namespace Lines

/-! ## JavaScript side: `create_line_geometry` -/

/-- One cell of a `Float32Array`: a number, or the NaN produced by storing `undefined`. -/
inductive F32 (α : Type) where
  | num (a : α)
  | nan
  deriving DecidableEq, Repr

/-- The value `linepositions[j]` as it is stored into a `Float32Array`:
reading past the end of the array gives `undefined`, which is stored as NaN. -/
def readPosition {α : Type} (linepositions : List α) (j : Nat) : F32 α :=
  match linepositions[j]? with
  | some a => F32.num a
  | none => F32.nan

/-- The assignment `points[j] = v` on a typed array: a write past the end is ignored. -/
def store {α : Type} (points : List (F32 α)) (j : Nat) (v : F32 α) : List (F32 α) :=
  points.set j v

/-- The loop `for (let i = 0; i < length; i += 2) { ... }` of lines 167-173,
started at loop counter `i` with the current content of `points`. -/
def copyLoop {α : Type} (linepositions : List α) (i : Nat) (points : List (F32 α)) :
    List (F32 α) :=
  if i < linepositions.length then
    let points := store points (2 * i) (readPosition linepositions i)
    let points := store points (2 * i + 1) (readPosition linepositions (i + 1))
    let points := store points (2 * i + 2) (readPosition linepositions (i + 2))
    let points := store points (2 * i + 3) (readPosition linepositions (i + 3))
    copyLoop linepositions (i + 2) points
  else
    points
termination_by linepositions.length - i

/-- The assignments `points[w] = linepositions[r]` that the loop of lines 167-173 executes
from loop counter `i` on, in order, each as the pair `(w, r)` of the index written in
`points` and the index read in `linepositions`. -/
def copyLoopAccesses {α : Type} (linepositions : List α) (i : Nat) : List (Nat × Nat) :=
  if i < linepositions.length then
    [(2 * i, i), (2 * i + 1, i + 1), (2 * i + 2, i + 2), (2 * i + 3, i + 3)]
      ++ copyLoopAccesses linepositions (i + 2)
  else
    []
termination_by linepositions.length - i

/-- The object `new THREE.InstancedInterleavedBuffer(array, stride, meshPerAttribute)`. -/
structure InstancedInterleavedBuffer (α : Type) where
  array : List (F32 α)
  stride : Nat
  meshPerAttribute : Nat

/-- The field `count` of an interleaved buffer, `array.length / stride`: the number of
complete slots of `stride` floats in the array. -/
def InstancedInterleavedBuffer.count {α : Type} (b : InstancedInterleavedBuffer α) : Nat :=
  b.array.length / b.stride

/-- The object `new THREE.InterleavedBufferAttribute(data, itemSize, offset)`. -/
structure InterleavedBufferAttribute (α : Type) where
  data : InstancedInterleavedBuffer α
  itemSize : Nat
  offset : Nat

/-- The accessor `getX(index)`: `data.array[index * data.stride + offset]`. -/
def InterleavedBufferAttribute.getX {α : Type} (a : InterleavedBufferAttribute α)
    (index : Nat) : Option (F32 α) :=
  a.data.array[index * a.data.stride + a.offset]?

/-- The accessor `getY(index)`: `data.array[index * data.stride + offset + 1]`. -/
def InterleavedBufferAttribute.getY {α : Type} (a : InterleavedBufferAttribute α)
    (index : Nat) : Option (F32 α) :=
  a.data.array[index * a.data.stride + a.offset + 1]?

/-- The object `new THREE.Float32BufferAttribute(array, itemSize)` of the quad template. -/
structure Float32BufferAttribute where
  array : List Int
  itemSize : Nat
  deriving DecidableEq, Repr

/-- The attribute's `count`: `array.length / itemSize`. -/
def Float32BufferAttribute.count (a : Float32BufferAttribute) : Nat :=
  a.array.length / a.itemSize

/-- The accessor `getX(index)` of a buffer attribute: `array[index * itemSize]`. -/
def Float32BufferAttribute.getX (a : Float32BufferAttribute) (index : Nat) : Option Int :=
  a.array[index * a.itemSize]?

/-- The accessor `getY(index)` of a buffer attribute: `array[index * itemSize + 1]`. -/
def Float32BufferAttribute.getY (a : Float32BufferAttribute) (index : Nat) : Option Int :=
  a.array[index * a.itemSize + 1]?

/-- The accessor `getZ(index)` of a buffer attribute: `array[index * itemSize + 2]`. -/
def Float32BufferAttribute.getZ (a : Float32BufferAttribute) (index : Nat) : Option Int :=
  a.array[index * a.itemSize + 2]?

/-- The `THREE.InstancedBufferGeometry` returned by `create_line_geometry`:
its index list and its four attributes. -/
structure LineGeometry (α : Type) where
  index : List Nat
  position : Float32BufferAttribute
  uv : Float32BufferAttribute
  instanceStart : InterleavedBufferAttribute α
  instanceEnd : InterleavedBufferAttribute α

/-- The constant `instance_positions` of lines 177-180. -/
def instance_positions : List Int :=
  [-1, 2, 0, 1, 2, 0, -1, 1, 0, 1, 1, 0, -1, 0, 0, 1, 0, 0, -1, -1, 0, 1,
   -1, 0]

/-- The constant `uvs` of line 181. -/
def uvs : List Int := [-1, 2, 1, 2, -1, 1, 1, 1, -1, -1, 1, -1, -1, -2, 1, -2]

/-- The constant `index` of line 182. -/
def index : List Nat := [0, 2, 1, 2, 3, 1, 2, 4, 3, 4, 5, 3, 4, 6, 5, 6, 7, 5]

/-- The buffer `points` after lines 164-173: a zero-filled `Float32Array` of
`2 * length` cells, run through the copy loop. -/
def linePoints {α : Type} [Zero α] (linepositions : List α) : List (F32 α) :=
  let length := linepositions.length
  let points := List.replicate (2 * length) (F32.num (0 : α))
  copyLoop linepositions 0 points

/-- The function `create_line_geometry(linepositions)` of lines 163-202. -/
def create_line_geometry {α : Type} [Zero α] (linepositions : List α) : LineGeometry α :=
  let points := linePoints linepositions
  let instanceBuffer : InstancedInterleavedBuffer α :=
    { array := points, stride := 4, meshPerAttribute := 1 }
  { index := index
    position := { array := instance_positions, itemSize := 3 }
    uv := { array := uvs, itemSize := 2 }
    instanceStart := { data := instanceBuffer, itemSize := 2, offset := 0 }
    instanceEnd := { data := instanceBuffer, itemSize := 2, offset := 2 } }

/-- The number of instances of the geometry: the `count` of the instanced buffer
behind `instanceStart` and `instanceEnd`, that is `points.length / 4`. -/
def instanceCount {α : Type} (g : LineGeometry α) : Nat :=
  g.instanceStart.data.count

/-- The pair read by the attribute `instanceStart` for instance `i`. -/
def startOf {α : Type} (g : LineGeometry α) (i : Nat) : Option (F32 α × F32 α) :=
  match g.instanceStart.getX i, g.instanceStart.getY i with
  | some x, some y => some (x, y)
  | _, _ => none

/-- The pair read by the attribute `instanceEnd` for instance `i`. -/
def endOf {α : Type} (g : LineGeometry α) (i : Nat) : Option (F32 α × F32 α) :=
  match g.instanceEnd.getX i, g.instanceEnd.getY i with
  | some x, some y => some (x, y)
  | _, _ => none

/-- The point `p_k` of a flat position array, `(linepositions[2k], linepositions[2k+1])`. -/
def pointAt {α : Type} (linepositions : List α) (k : Nat) : Option (α × α) :=
  match linepositions[2 * k]?, linepositions[2 * k + 1]? with
  | some x, some y => some (x, y)
  | _, _ => none

/-- The vertices of the `position` attribute, one triple `(x, y, z)` per vertex. -/
def templateVertices {α : Type} (g : LineGeometry α) :
    List (Option Int × Option Int × Option Int) :=
  (List.range g.position.count).map
    (fun k => (g.position.getX k, g.position.getY k, g.position.getZ k))

/-- The pairs of the `uv` attribute, one pair per vertex. -/
def templateUVs {α : Type} (g : LineGeometry α) : List (Option Int × Option Int) :=
  (List.range g.uv.count).map (fun k => (g.uv.getX k, g.uv.getY k))

/-- The read-back of the instance buffer: the start of each instance in order, followed by
the end of the last instance. -/
def readBack {α : Type} (g : LineGeometry α) : List (Option (F32 α × F32 α)) :=
  (List.range (instanceCount g)).map (startOf g) ++ [endOf g (instanceCount g - 1)]

/-- The offsets `j` at which two consecutive floats `(points[j], points[j+1])` of a buffer
hold the pair `p`. -/
def pairOffsets {α : Type} [DecidableEq α] (points : List (F32 α)) (p : F32 α × F32 α) :
    List Nat :=
  (List.range points.length).filter
    (fun j => decide (points[j]? = some p.1 ∧ points[j + 1]? = some p.2))

/-! ## GLSL side: vectors and matrices -/

/-- A GLSL `vec2`. -/
structure Vec2 (K : Type) where
  x : K
  y : K
  deriving DecidableEq, Repr

/-- A GLSL `vec3`. -/
structure Vec3 (K : Type) where
  x : K
  y : K
  z : K
  deriving DecidableEq, Repr

/-- A GLSL `vec4`. -/
structure Vec4 (K : Type) where
  x : K
  y : K
  z : K
  w : K
  deriving DecidableEq, Repr

/-- A GLSL `mat4`, column-major: `m c r` is `m[c][r]`, the entry in column `c`, row `r`. -/
abbrev Mat4 (K : Type) : Type := Fin 4 → Fin 4 → K

section Shader

variable {K : Type} [LinearOrderedField K]

/-- Component `r` of a `vec4`, `v[r]`. -/
def Vec4.get (v : Vec4 K) (r : Fin 4) : K :=
  match r with
  | 0 => v.x
  | 1 => v.y
  | 2 => v.z
  | 3 => v.w

/-- The constructor `mat4(c0, c1, c2, c3)` from four column vectors. -/
def Mat4.ofColumns (c0 c1 c2 c3 : Vec4 K) : Mat4 K :=
  fun c r =>
    match c with
    | 0 => c0.get r
    | 1 => c1.get r
    | 2 => c2.get r
    | 3 => c3.get r

/-- The product `m * v` of a `mat4` and a `vec4`. -/
def Mat4.mulVec (m : Mat4 K) (v : Vec4 K) : Vec4 K :=
  { x := m 0 0 * v.x + m 1 0 * v.y + m 2 0 * v.z + m 3 0 * v.w
    y := m 0 1 * v.x + m 1 1 * v.y + m 2 1 * v.z + m 3 1 * v.w
    z := m 0 2 * v.x + m 1 2 * v.y + m 2 2 * v.z + m 3 2 * v.w
    w := m 0 3 * v.x + m 1 3 * v.y + m 2 3 * v.z + m 3 3 * v.w }

/-- The product `a * b` of two `mat4`. -/
def Mat4.mul (a b : Mat4 K) : Mat4 K :=
  fun c r => a 0 r * b c 0 + a 1 r * b c 1 + a 2 r * b c 2 + a 3 r * b c 3

/-- The built-in `mix(x, y, a)`: `x * (1 - a) + y * a`. -/
def mix (x y a : K) : K := x * (1 - a) + y * a

/-- The built-in `normalize` on a `vec2`: the vector divided by its length. -/
def normalize (sqrt : K → K) (v : Vec2 K) : Vec2 K :=
  let len := sqrt (v.x * v.x + v.y * v.y)
  { x := v.x / len, y := v.y / len }

/-- The built-in `clamp(x, minVal, maxVal)`: `min(max(x, minVal), maxVal)`. -/
def clamp (x minVal maxVal : K) : K := min (max x minVal) maxVal

/-- The built-in `smoothstep(edge0, edge1, x)`. -/
def smoothstep (edge0 edge1 x : K) : K :=
  let t := clamp ((x - edge0) / (edge1 - edge0)) 0 1
  t * t * (3 - 2 * t)

/-! ## The vertex shader `LINES_VERT` -/

/-- The uniforms of the vertex shader. -/
structure VertUniforms (K : Type) where
  linewidth : K
  resolution : Vec2 K
  projection : Mat4 K
  model : Mat4 K
  view : Mat4 K

/-- The per-vertex inputs of the vertex shader. -/
structure VertIn (K : Type) where
  uv : Vec2 K
  position : Vec3 K
  instanceStart : Vec2 K
  instanceEnd : Vec2 K

/-- The outputs of the vertex shader. -/
structure VertOut (K : Type) where
  gl_Position : Vec4 K
  vUv : Vec2 K

/-- The local `nearEstimate` of `trimSegment` (lines 29-31): `-0.5 * b / a` with
`a = projection[2][2]` and `b = projection[3][2]`. -/
def nearEstimate (projection : Mat4 K) : K :=
  let a := projection 2 2
  let b := projection 3 2
  let nearEstimate := -(1 / 2) * b / a
  nearEstimate

/-- The function `trimSegment(start, end)` of lines 24-37; the result is the new value of
the `inout` parameter `end`. -/
def trimSegment (projection : Mat4 K) (start end_ : Vec4 K) : Vec4 K :=
  let nearEstimate := nearEstimate projection
  let alpha := (nearEstimate - start.z) / (end_.z - start.z)
  { x := mix start.x end_.x alpha
    y := mix start.y end_.y alpha
    z := mix start.z end_.z alpha
    w := end_.w }

/-- Lines 42-45 of `main`: `start` and `end` in camera space, `view * model` applied to
`vec4(instanceStart, 0.0, 1.0)` and `vec4(instanceEnd, 0.0, 1.0)`. -/
def cameraEndpoints (u : VertUniforms K) (instanceStart instanceEnd : Vec2 K) :
    Vec4 K × Vec4 K :=
  let model_view := Mat4.mul u.view u.model
  let start := Mat4.mulVec model_view ⟨instanceStart.x, instanceStart.y, 0, 1⟩
  let end_ := Mat4.mulVec model_view ⟨instanceEnd.x, instanceEnd.y, 0, 1⟩
  (start, end_)

/-- Lines 53-67 of `main`: the perspective special case, applied to `start` and `end`. -/
def trimStage (projection : Mat4 K) (start end_ : Vec4 K) : Vec4 K × Vec4 K :=
  let perspective : Bool := decide (projection 2 3 = -1)
  if perspective then
    if start.z < 0 ∧ end_.z ≥ 0 then
      (start, trimSegment projection start end_)
    else if end_.z < 0 ∧ start.z ≥ 0 then
      (trimSegment projection end_ start, end_)
    else
      (start, end_)
  else
    (start, end_)

/-- Lines 42-67 of `main`: `start` and `end` as they are used for the clip-space
projection. -/
def cameraSegment (u : VertUniforms K) (instanceStart instanceEnd : Vec2 K) :
    Vec4 K × Vec4 K :=
  let se := cameraEndpoints u instanceStart instanceEnd
  trimStage u.projection se.1 se.2

/-- Lines 70-71 of `main`: `clipStart` and `clipEnd`. -/
def clipSegment (u : VertUniforms K) (instanceStart instanceEnd : Vec2 K) :
    Vec4 K × Vec4 K :=
  let se := cameraSegment u instanceStart instanceEnd
  (Mat4.mulVec u.projection se.1, Mat4.mulVec u.projection se.2)

/-- Lines 41 and 74-108 of `main`: the value of `offset` before it is multiplied by
`clip.w`. -/
def screenOffset (sqrt : K → K) (linewidth : K) (resolution : Vec2 K) (position : Vec3 K)
    (clipStart clipEnd : Vec4 K) : Vec2 K :=
  let aspect := resolution.x / resolution.y
  let ndcStart : Vec3 K :=
    ⟨clipStart.x / clipStart.w, clipStart.y / clipStart.w, clipStart.z / clipStart.w⟩
  let ndcEnd : Vec3 K :=
    ⟨clipEnd.x / clipEnd.w, clipEnd.y / clipEnd.w, clipEnd.z / clipEnd.w⟩
  let dir : Vec2 K := ⟨ndcEnd.x - ndcStart.x, ndcEnd.y - ndcStart.y⟩
  let dir : Vec2 K := ⟨dir.x * aspect, dir.y⟩
  let dir : Vec2 K := normalize sqrt dir
  let offset : Vec2 K := ⟨dir.y, -dir.x⟩
  let dir : Vec2 K := ⟨dir.x / aspect, dir.y⟩
  let offset : Vec2 K := ⟨offset.x / aspect, offset.y⟩
  let offset : Vec2 K :=
    if position.x < 0 then ⟨offset.x * -1, offset.y * -1⟩ else offset
  let offset : Vec2 K :=
    if position.y < 0 then ⟨offset.x + -dir.x, offset.y + -dir.y⟩
    else if position.y > 1 then ⟨offset.x + dir.x, offset.y + dir.y⟩
    else offset
  let offset : Vec2 K := ⟨offset.x * linewidth, offset.y * linewidth⟩
  let offset : Vec2 K := ⟨offset.x / resolution.y, offset.y / resolution.y⟩
  offset

/-- The function `main` of the vertex shader (lines 39-123): `gl_Position` and `vUv`. -/
def LINES_VERT_main (sqrt : K → K) (u : VertUniforms K) (inp : VertIn K) : VertOut K :=
  let vUv := inp.uv
  let clips := clipSegment u inp.instanceStart inp.instanceEnd
  let clipStart := clips.1
  let clipEnd := clips.2
  let offset := screenOffset sqrt u.linewidth u.resolution inp.position clipStart clipEnd
  let clip : Vec4 K := if inp.position.y < 1 / 2 then clipStart else clipEnd
  let offset : Vec2 K := ⟨offset.x * clip.w, offset.y * clip.w⟩
  let clip : Vec4 K := ⟨clip.x + offset.x, clip.y + offset.y, clip.z, clip.w⟩
  { gl_Position := clip, vUv := vUv }

/-! ## The fragment shader `LINES_FRAG` -/

/-- The uniforms of the fragment shader. -/
structure FragUniforms (K : Type) where
  diffuse : Vec3 K
  opacity : K

/-- The function `main` of the fragment shader (lines 134-151): `gl_FragColor`.
The argument `dlen` is the value of `fwidth(len2)`, a screen-space derivative that the
rasteriser supplies. -/
def LINES_FRAG_main (u : FragUniforms K) (vUv : Vec2 K) (dlen : K) : Vec4 K :=
  let alpha := u.opacity
  let a := vUv.x
  let b := if vUv.y > 0 then vUv.y - 1 else vUv.y + 1
  let len2 := a * a + b * b
  let alpha := if |vUv.y| > 1 then 1 - smoothstep (1 - dlen) (1 + dlen) len2 else alpha
  let diffuseColor : Vec4 K := ⟨u.diffuse.x, u.diffuse.y, u.diffuse.z, alpha⟩
  ⟨diffuseColor.x, diffuseColor.y, diffuseColor.z, alpha⟩

/-- The local `len2` of the fragment shader (lines 139-141). -/
def fragLen2 (vUv : Vec2 K) : K :=
  let a := vUv.x
  let b := if vUv.y > 0 then vUv.y - 1 else vUv.y + 1
  let len2 := a * a + b * b
  len2

/-! ## Screen-space vocabulary of the claims -/

/-- The NDC `xy` of a clip-space point: its `xy` after the perspective division. -/
def ndcXY (c : Vec4 K) : Vec2 K := ⟨c.x / c.w, c.y / c.w⟩

/-- The pixel position of an NDC point: `(x * resolution.x / 2, y * resolution.y / 2)`. -/
def toPixels (resolution : Vec2 K) (p : Vec2 K) : Vec2 K :=
  ⟨p.x * resolution.x / 2, p.y * resolution.y / 2⟩

/-- The direction of the segment in pixel space: end pixel minus start pixel. -/
def pixelDir (resolution : Vec2 K) (clipStart clipEnd : Vec4 K) : Vec2 K :=
  let s := toPixels resolution (ndcXY clipStart)
  let e := toPixels resolution (ndcXY clipEnd)
  ⟨e.x - s.x, e.y - s.y⟩

/-- The unit vector perpendicular to the segment direction in pixel space: the direction
`(d.x, d.y)` turned into `(d.y, -d.x)` and divided by its length. -/
def pixelNormal (sqrt : K → K) (resolution : Vec2 K) (clipStart clipEnd : Vec4 K) : Vec2 K :=
  let d := pixelDir resolution clipStart clipEnd
  let len := sqrt (d.x * d.x + d.y * d.y)
  ⟨d.y / len, -d.x / len⟩

/-- The pixel position of a vertex: `gl_Position` after the perspective division,
converted to pixels. -/
def vertexPixel (sqrt : K → K) (u : VertUniforms K) (inp : VertIn K) : Vec2 K :=
  toPixels u.resolution (ndcXY (LINES_VERT_main sqrt u inp).gl_Position)

/-- The pixel position of the endpoint the vertex is attached to: `clipStart` when
`position.y < 0.5`, else `clipEnd`, after the perspective division, converted to pixels. -/
def selectedPixel (u : VertUniforms K) (inp : VertIn K) : Vec2 K :=
  let clips := clipSegment u inp.instanceStart inp.instanceEnd
  toPixels u.resolution (ndcXY (if inp.position.y < 1 / 2 then clips.1 else clips.2))

/-- The unit normal of the segment of an instance in pixel space, computed from
`clipStart` and `clipEnd`. -/
def segmentNormal (sqrt : K → K) (u : VertUniforms K) (inp : VertIn K) : Vec2 K :=
  let clips := clipSegment u inp.instanceStart inp.instanceEnd
  pixelNormal sqrt u.resolution clips.1 clips.2

/-- The direction of the segment of an instance in pixel space. -/
def segmentDir (u : VertUniforms K) (inp : VertIn K) : Vec2 K :=
  let clips := clipSegment u inp.instanceStart inp.instanceEnd
  pixelDir u.resolution clips.1 clips.2

/-- The clip-space point a vertex is attached to (line 111): `clipStart` when
`position.y < 0.5`, else `clipEnd`. -/
def selectedClip (u : VertUniforms K) (inp : VertIn K) : Vec4 K :=
  let clips := clipSegment u inp.instanceStart inp.instanceEnd
  if inp.position.y < 1 / 2 then clips.1 else clips.2

/-- The value of `offset` of a vertex before line 115 multiplies it by `clip.w`. -/
def vertexOffset (sqrt : K → K) (u : VertUniforms K) (inp : VertIn K) : Vec2 K :=
  let clips := clipSegment u inp.instanceStart inp.instanceEnd
  screenOffset sqrt u.linewidth u.resolution inp.position clips.1 clips.2

/-- The unit vector along the segment of an instance in pixel space: the pixel direction
divided by its length. -/
def segmentTangent (sqrt : K → K) (u : VertUniforms K) (inp : VertIn K) : Vec2 K :=
  let d := segmentDir u inp
  let len := sqrt (d.x * d.x + d.y * d.y)
  ⟨d.x / len, d.y / len⟩

/-- The pixel position of the start point of the segment of an instance. -/
def startPixel (u : VertUniforms K) (inp : VertIn K) : Vec2 K :=
  toPixels u.resolution (ndcXY (clipSegment u inp.instanceStart inp.instanceEnd).1)

/-- The pixel position of the end point of the segment of an instance. -/
def endPixel (u : VertUniforms K) (inp : VertIn K) : Vec2 K :=
  toPixels u.resolution (ndcXY (clipSegment u inp.instanceStart inp.instanceEnd).2)

/-! ## Sample inputs -/

/-- The identity `mat4`. -/
def identity4 : Mat4 K := Mat4.ofColumns ⟨1, 0, 0, 0⟩ ⟨0, 1, 0, 0⟩ ⟨0, 0, 1, 0⟩ ⟨0, 0, 0, 1⟩

/-- A view matrix that tilts the `z = 0` plane of the line: camera-space `z` is `x + z`. -/
def tiltView : Mat4 K := Mat4.ofColumns ⟨1, 0, 1, 0⟩ ⟨0, 1, 0, 0⟩ ⟨0, 0, 1, 0⟩ ⟨0, 0, 0, 1⟩

/-- A perspective projection: `projection[2][2] = -1`, `projection[2][3] = -1`,
`projection[3][2] = -1`, so that `nearEstimate = -1/2`. -/
def perspective4 : Mat4 K :=
  Mat4.ofColumns ⟨1, 0, 0, 0⟩ ⟨0, 1, 0, 0⟩ ⟨0, 0, -1, -1⟩ ⟨0, 0, -1, 0⟩

/-- Uniforms with the perspective projection and the tilted view, on an 800 x 600 viewport
with `linewidth = 4`. -/
def perspectiveUniforms : VertUniforms K :=
  { linewidth := 4, resolution := ⟨800, 600⟩, projection := perspective4,
    model := identity4, view := tiltView }

/-- Uniforms with an orthographic (identity) projection and the tilted view. -/
def orthographicUniforms : VertUniforms K :=
  { linewidth := 4, resolution := ⟨800, 600⟩, projection := identity4,
    model := identity4, view := tiltView }

/-- A body vertex of the quad template, `position = (1, 1, 0)` with `uv = (1, 1)`, on the
segment `(-1, 0) -> (1, 0)`. -/
def bodyVertex : VertIn K :=
  { uv := ⟨1, 1⟩, position := ⟨1, 1, 0⟩, instanceStart := ⟨-1, 0⟩, instanceEnd := ⟨1, 0⟩ }

/-- A cap vertex of the quad template, `position = (1, -1, 0)` with `uv = (1, -2)`, on the
segment `(-1, 0) -> (1, 0)`. -/
def capVertex : VertIn K :=
  { uv := ⟨1, -2⟩, position := ⟨1, -1, 0⟩, instanceStart := ⟨-1, 0⟩, instanceEnd := ⟨1, 0⟩ }

end Shader

/-! ### The copy loop, cell by cell -/

theorem length_store {α : Type} (points : List (F32 α)) (j : Nat) (v : F32 α) :
    (store points j v).length = points.length := by
  simp [store]

theorem length_copyLoop {α : Type} (lp : List α) (n : Nat) :
    ∀ (i : Nat) (points : List (F32 α)), lp.length - i ≤ n →
      (copyLoop lp i points).length = points.length := by
  induction n with
  | zero =>
    intro i points h
    rw [copyLoop, if_neg (by omega)]
  | succ n ih =>
    intro i points h
    rw [copyLoop]
    split
    · rw [ih (i + 2) _ (by omega)]
      simp [length_store]
    · rfl

theorem length_linePoints {α : Type} [Zero α] (lp : List α) :
    (linePoints lp).length = 2 * lp.length := by
  simp [linePoints, length_copyLoop lp lp.length 0 _ (by omega)]

/-- Cell `j` of the buffer after the copy loop started at the even counter `2 * m`:
every cell of a slot the loop visits holds `linepositions[j - 2 * (j / 4)]`. -/
theorem getElem?_copyLoop {α : Type} (lp : List α) (n : Nat) :
    ∀ (m : Nat) (points : List (F32 α)), lp.length - 2 * m ≤ n → ∀ j : Nat,
      (copyLoop lp (2 * m) points)[j]? =
        if 4 * m ≤ j ∧ j < points.length ∧ 2 * (j / 4) < lp.length then
          some (readPosition lp (j - 2 * (j / 4)))
        else points[j]? := by
  induction n with
  | zero =>
    intro m points h j
    rw [copyLoop, if_neg (by omega), if_neg (by omega)]
  | succ n ih =>
    intro m points h j
    rw [copyLoop]
    by_cases hm : 2 * m < lp.length
    · rw [if_pos hm]
      have e : 2 * m + 2 = 2 * (m + 1) := by ring
      simp only [e]
      rw [ih (m + 1) _ (by omega) j]
      simp only [length_store, store, List.getElem?_set, List.length_set]
      split_ifs <;>
        first
          | rfl
          | (exfalso; omega)
          | (congr 2; omega)
          | (symm; apply List.getElem?_eq_none; omega)
    · rw [if_neg hm, if_neg (by omega)]

/-- Cell `j` of the buffer `points` built from a position array: inside the buffer it is
`linepositions[j - 2 * (j / 4)]`, converted on store. -/
theorem getElem?_linePoints {α : Type} [Zero α] (lp : List α) (j : Nat)
    (hj : j < 2 * lp.length) :
    (linePoints lp)[j]? = some (readPosition lp (j - 2 * (j / 4))) := by
  have h := getElem?_copyLoop lp lp.length 0
    (List.replicate (2 * lp.length) (F32.num (0 : α))) (by omega) j
  simp only [Nat.mul_zero] at h
  simp only [linePoints]
  rw [h, if_pos]
  refine ⟨by omega, by simpa using hj, by omega⟩

theorem instanceCount_create_line_geometry {α : Type} [Zero α] (lp : List α) :
    instanceCount (create_line_geometry lp) = 2 * lp.length / 4 := by
  simp [instanceCount, InstancedInterleavedBuffer.count, create_line_geometry,
    length_linePoints]

/-- What `instanceStart` reads for a slot inside the buffer. -/
theorem startOf_create_line_geometry {α : Type} [Zero α] (lp : List α) (i : Nat)
    (h : 4 * i + 1 < 2 * lp.length) :
    startOf (create_line_geometry lp) i
      = some (readPosition lp (2 * i), readPosition lp (2 * i + 1)) := by
  have e0 : 4 * i - 2 * (4 * i / 4) = 2 * i := by omega
  have e1 : 4 * i + 1 - 2 * ((4 * i + 1) / 4) = 2 * i + 1 := by omega
  simp only [startOf, create_line_geometry, InterleavedBufferAttribute.getX,
    InterleavedBufferAttribute.getY, Nat.add_zero, Nat.mul_comm i 4]
  rw [getElem?_linePoints lp (4 * i) (by omega),
    getElem?_linePoints lp (4 * i + 1) (by omega), e0, e1]

/-- What `instanceEnd` reads for a slot inside the buffer. -/
theorem endOf_create_line_geometry {α : Type} [Zero α] (lp : List α) (i : Nat)
    (h : 4 * i + 3 < 2 * lp.length) :
    endOf (create_line_geometry lp) i
      = some (readPosition lp (2 * i + 2), readPosition lp (2 * i + 3)) := by
  have e2 : 4 * i + 2 - 2 * ((4 * i + 2) / 4) = 2 * i + 2 := by omega
  have e3 : 4 * i + 2 + 1 - 2 * ((4 * i + 2 + 1) / 4) = 2 * i + 3 := by omega
  simp only [endOf, create_line_geometry, InterleavedBufferAttribute.getX,
    InterleavedBufferAttribute.getY, Nat.mul_comm i 4]
  rw [getElem?_linePoints lp (4 * i + 2) (by omega),
    getElem?_linePoints lp (4 * i + 2 + 1) (by omega), e2, e3]

theorem readPosition_of_lt {α : Type} (lp : List α) (j : Nat) (h : j < lp.length) :
    readPosition lp j = F32.num (lp.get ⟨j, h⟩) := by
  simp [readPosition, List.getElem?_eq_getElem h]

theorem readPosition_of_ge {α : Type} (lp : List α) (j : Nat) (h : lp.length ≤ j) :
    readPosition lp j = F32.nan := by
  simp [readPosition, List.getElem?_eq_none h]

/-! ### Claims on the geometry builder -/

/-- C1 (code defect). Evaluation of `create_line_geometry` on the three points
`[0,0, 1,0, 1,1]`: the instance buffer has 3 stride-4 slots, not 2; the first two are the
segments `(0,0)->(1,0)` and `(1,0)->(1,1)`, the third starts at the last point `(1,1)` and
its end is read past the end of the position array, so it is `(NaN, NaN)`. -/
theorem create_line_geometry_three_points_count :
    instanceCount (create_line_geometry ([0, 0, 1, 0, 1, 1] : List Int)) = 3 ∧
    startOf (create_line_geometry ([0, 0, 1, 0, 1, 1] : List Int)) 2
      = some (F32.num 1, F32.num 1) ∧
    endOf (create_line_geometry ([0, 0, 1, 0, 1, 1] : List Int)) 2
      = some (F32.nan, F32.nan) := by
  simp [instanceCount, InstancedInterleavedBuffer.count, startOf, endOf,
    InterleavedBufferAttribute.getX, InterleavedBufferAttribute.getY,
    create_line_geometry, linePoints, copyLoop, store, readPosition]

/-- C2. For a position array of `N ≥ 2` points and every `i ≤ N - 2`, instance `i` of the
buffer built by `create_line_geometry` has `instanceStart = p_i` and
`instanceEnd = p_{i+1}`. -/
theorem instance_start_end {α : Type} [Zero α] (lp : List α) (N i : Nat)
    (hlen : lp.length = 2 * N) (hN : 2 ≤ N) (hi : i ≤ N - 2) :
    ∃ p q : α × α, pointAt lp i = some p ∧ pointAt lp (i + 1) = some q ∧
      startOf (create_line_geometry lp) i = some (F32.num p.1, F32.num p.2) ∧
      endOf (create_line_geometry lp) i = some (F32.num q.1, F32.num q.2) := by
  have h0 : 2 * i < lp.length := by omega
  have h1 : 2 * i + 1 < lp.length := by omega
  have h2 : 2 * i + 2 < lp.length := by omega
  have h3 : 2 * i + 3 < lp.length := by omega
  refine ⟨(lp.get ⟨2 * i, h0⟩, lp.get ⟨2 * i + 1, h1⟩),
    (lp.get ⟨2 * i + 2, h2⟩, lp.get ⟨2 * i + 3, h3⟩), ?_, ?_, ?_, ?_⟩
  · simp [pointAt, List.getElem?_eq_getElem h0, List.getElem?_eq_getElem h1]
  · have e : 2 * (i + 1) = 2 * i + 2 := by ring
    simp [pointAt, e, List.getElem?_eq_getElem h2, List.getElem?_eq_getElem h3]
  · rw [startOf_create_line_geometry lp i (by omega), readPosition_of_lt lp _ h0,
      readPosition_of_lt lp _ h1]
  · rw [endOf_create_line_geometry lp i (by omega), readPosition_of_lt lp _ h2,
      readPosition_of_lt lp _ h3]

/-- Witness of C2 on the L-shaped polyline `[0,0, 1,0, 1,1]`, instance 1. -/
theorem instance_start_end_witness :
    (([0, 0, 1, 0, 1, 1] : List Int).length = 2 * 3 ∧ 2 ≤ 3 ∧ 1 ≤ 3 - 2) ∧
    ∃ p q : Int × Int, pointAt ([0, 0, 1, 0, 1, 1] : List Int) 1 = some p ∧
      pointAt ([0, 0, 1, 0, 1, 1] : List Int) (1 + 1) = some q ∧
      startOf (create_line_geometry ([0, 0, 1, 0, 1, 1] : List Int)) 1
        = some (F32.num p.1, F32.num p.2) ∧
      endOf (create_line_geometry ([0, 0, 1, 0, 1, 1] : List Int)) 1
        = some (F32.num q.1, F32.num q.2) :=
  ⟨by decide, instance_start_end [0, 0, 1, 0, 1, 1] 3 1 (by decide) (by decide) (by decide)⟩

/-- C3 (code defect). Evaluation of `create_line_geometry` on the single point `[5, 7]`:
the instance buffer has one stride-4 slot, not zero; it starts at `(5, 7)` and its end
is `(NaN, NaN)`. On the empty array the buffer has no slot. -/
theorem create_line_geometry_one_point_count :
    instanceCount (create_line_geometry ([5, 7] : List Int)) = 1 ∧
    startOf (create_line_geometry ([5, 7] : List Int)) 0 = some (F32.num 5, F32.num 7) ∧
    endOf (create_line_geometry ([5, 7] : List Int)) 0 = some (F32.nan, F32.nan) ∧
    instanceCount (create_line_geometry ([] : List Int)) = 0 := by
  simp [instanceCount, InstancedInterleavedBuffer.count, startOf, endOf,
    InterleavedBufferAttribute.getX, InterleavedBufferAttribute.getY,
    create_line_geometry, linePoints, copyLoop, store, readPosition]

/-- C4. For every position array and every `i` such that `i` and `i + 1` are both
instances of the buffer, the `instanceEnd` of instance `i` is the `instanceStart` of
instance `i + 1`. -/
theorem instance_end_eq_next_start {α : Type} [Zero α] (lp : List α) (i : Nat)
    (_hi : i < instanceCount (create_line_geometry lp))
    (hi1 : i + 1 < instanceCount (create_line_geometry lp)) :
    ∃ v : F32 α × F32 α, endOf (create_line_geometry lp) i = some v ∧
      startOf (create_line_geometry lp) (i + 1) = some v := by
  rw [instanceCount_create_line_geometry] at hi1
  refine ⟨(readPosition lp (2 * i + 2), readPosition lp (2 * i + 3)), ?_, ?_⟩
  · rw [endOf_create_line_geometry lp i (by omega)]
  · rw [startOf_create_line_geometry lp (i + 1) (by omega)]
    have e : 2 * (i + 1) = 2 * i + 2 := by ring
    rw [e]

/-- Witness of C4 on `[0,0, 1,0, 1,1]`, instances 0 and 1. -/
theorem instance_end_eq_next_start_witness :
    (0 < instanceCount (create_line_geometry ([0, 0, 1, 0, 1, 1] : List Int)) ∧
     0 + 1 < instanceCount (create_line_geometry ([0, 0, 1, 0, 1, 1] : List Int))) ∧
    ∃ v : F32 Int × F32 Int,
      endOf (create_line_geometry ([0, 0, 1, 0, 1, 1] : List Int)) 0 = some v ∧
      startOf (create_line_geometry ([0, 0, 1, 0, 1, 1] : List Int)) (0 + 1) = some v :=
  ⟨by simp [instanceCount_create_line_geometry],
   instance_end_eq_next_start [0, 0, 1, 0, 1, 1] 0
     (by simp [instanceCount_create_line_geometry])
     (by simp [instanceCount_create_line_geometry])⟩

/-- C5 (code defect). Reading back the buffer built from the three points
`[0,0, 1,0, 1,1]` yields four points: the three input points followed by `(NaN, NaN)`,
the end of the slot that starts at the last point. -/
theorem readBack_three_points :
    readBack (create_line_geometry ([0, 0, 1, 0, 1, 1] : List Int))
      = [some (F32.num 0, F32.num 0), some (F32.num 1, F32.num 0),
         some (F32.num 1, F32.num 1), some (F32.nan, F32.nan)] := by
  simp [readBack, List.range_succ, instanceCount, InstancedInterleavedBuffer.count,
    startOf, endOf, InterleavedBufferAttribute.getX, InterleavedBufferAttribute.getY,
    create_line_geometry, linePoints, copyLoop, store, readPosition]

/-- C6 (counterexample). On the three points `[1,2, 3,4, 5,6]` the buffer is
`[1,2,3,4, 3,4,5,6, 5,6,NaN,NaN]`: the point `p_1 = (3,4)` is held by two pairs of
consecutive floats, at offsets 2 and 4, not by exactly one. -/
theorem point_stored_twice :
    pointAt ([1, 2, 3, 4, 5, 6] : List Int) 1 = some (3, 4) ∧
    pairOffsets (linePoints ([1, 2, 3, 4, 5, 6] : List Int)) (F32.num 3, F32.num 4) = [2, 4] ∧
    (pairOffsets (linePoints ([1, 2, 3, 4, 5, 6] : List Int)) (F32.num 3, F32.num 4)).length
      ≠ 1 := by
  have h : linePoints ([1, 2, 3, 4, 5, 6] : List Int)
      = [F32.num 1, F32.num 2, F32.num 3, F32.num 4, F32.num 3, F32.num 4, F32.num 5,
         F32.num 6, F32.num 5, F32.num 6, F32.nan, F32.nan] := by
    simp [linePoints, copyLoop, store, readPosition]
  rw [h]
  decide

/-- C6 (amended). For a position array of `N` points, the buffer holds the point `p_k` in
the floats `(4k, 4k+1)`, as the start of instance `k`, for every `k <= N-2`, and in the
floats `(4k-2, 4k-1)`, as the end of instance `k-1`, for every `1 <= k <= N-1`: an interior
point is stored twice, each of the two adjacent segments holding its own copy. -/
theorem point_stored_per_segment {α : Type} [Zero α] (lp : List α) (N k : Nat)
    (hlen : lp.length = 2 * N) (hk : k < N) :
    ∃ p : α × α, pointAt lp k = some p ∧
      (k + 2 ≤ N → (linePoints lp)[4 * k]? = some (F32.num p.1) ∧
        (linePoints lp)[4 * k + 1]? = some (F32.num p.2)) ∧
      (1 ≤ k → (linePoints lp)[4 * k - 2]? = some (F32.num p.1) ∧
        (linePoints lp)[4 * k - 1]? = some (F32.num p.2)) := by
  have h0 : 2 * k < lp.length := by omega
  have h1 : 2 * k + 1 < lp.length := by omega
  refine ⟨(lp.get ⟨2 * k, h0⟩, lp.get ⟨2 * k + 1, h1⟩), ?_, ?_, ?_⟩
  · simp [pointAt, List.getElem?_eq_getElem h0, List.getElem?_eq_getElem h1]
  · intro _
    have e0 : 4 * k - 2 * (4 * k / 4) = 2 * k := by omega
    have e1 : 4 * k + 1 - 2 * ((4 * k + 1) / 4) = 2 * k + 1 := by omega
    rw [getElem?_linePoints lp (4 * k) (by omega),
      getElem?_linePoints lp (4 * k + 1) (by omega), e0, e1,
      readPosition_of_lt lp _ h0, readPosition_of_lt lp _ h1]
    exact ⟨rfl, rfl⟩
  · intro hk1
    have e0 : 4 * k - 2 - 2 * ((4 * k - 2) / 4) = 2 * k := by omega
    have e1 : 4 * k - 1 - 2 * ((4 * k - 1) / 4) = 2 * k + 1 := by omega
    rw [getElem?_linePoints lp (4 * k - 2) (by omega),
      getElem?_linePoints lp (4 * k - 1) (by omega), e0, e1,
      readPosition_of_lt lp _ h0, readPosition_of_lt lp _ h1]
    exact ⟨rfl, rfl⟩

/-- Witness of the amended C6 on `[1,2, 3,4, 5,6, 7,8]`, interior point `p_1`. -/
theorem point_stored_per_segment_witness :
    (([1, 2, 3, 4, 5, 6, 7, 8] : List Int).length = 2 * 4 ∧ 1 < 4) ∧
    ∃ p : Int × Int, pointAt ([1, 2, 3, 4, 5, 6, 7, 8] : List Int) 1 = some p ∧
      (1 + 2 ≤ 4 → (linePoints ([1, 2, 3, 4, 5, 6, 7, 8] : List Int))[4 * 1]?
          = some (F32.num p.1) ∧
        (linePoints ([1, 2, 3, 4, 5, 6, 7, 8] : List Int))[4 * 1 + 1]?
          = some (F32.num p.2)) ∧
      (1 ≤ 1 → (linePoints ([1, 2, 3, 4, 5, 6, 7, 8] : List Int))[4 * 1 - 2]?
          = some (F32.num p.1) ∧
        (linePoints ([1, 2, 3, 4, 5, 6, 7, 8] : List Int))[4 * 1 - 1]?
          = some (F32.num p.2)) :=
  ⟨by decide, point_stored_per_segment [1, 2, 3, 4, 5, 6, 7, 8] 4 1 (by decide) (by decide)⟩

/-- The copy loop is the list of its assignments, executed in order. -/
theorem copyLoop_eq_foldl {α : Type} (lp : List α) (n : Nat) :
    ∀ (i : Nat) (points : List (F32 α)), lp.length - i ≤ n →
      copyLoop lp i points
        = (copyLoopAccesses lp i).foldl
            (fun pts a => store pts a.1 (readPosition lp a.2)) points := by
  induction n with
  | zero =>
    intro i points h
    rw [copyLoop, copyLoopAccesses, if_neg (by omega), if_neg (by omega)]
    rfl
  | succ n ih =>
    intro i points h
    rw [copyLoop, copyLoopAccesses]
    by_cases hi : i < lp.length
    · rw [if_pos hi, if_pos hi, ih (i + 2) _ (by omega)]
      simp [List.foldl_append]
    · rw [if_neg hi, if_neg hi]
      rfl

/-- The assignments of the loop started at the even counter `2 * m`: iteration `2 * k`
writes `points[4k + d]` from `linepositions[2k + d]` for `d = 0, 1, 2, 3`. -/
theorem mem_copyLoopAccesses {α : Type} (lp : List α) (n : Nat) :
    ∀ (m : Nat), lp.length - 2 * m ≤ n → ∀ w r : Nat,
      ((w, r) ∈ copyLoopAccesses lp (2 * m) ↔
        ∃ k d : Nat, m ≤ k ∧ 2 * k < lp.length ∧ d < 4 ∧ w = 4 * k + d ∧ r = 2 * k + d) := by
  induction n with
  | zero =>
    intro m h w r
    rw [copyLoopAccesses, if_neg (by omega)]
    simp only [List.not_mem_nil, false_iff, not_exists]
    intro k d hk
    omega
  | succ n ih =>
    intro m h w r
    rw [copyLoopAccesses]
    by_cases hm : 2 * m < lp.length
    · rw [if_pos hm]
      have e : 2 * m + 2 = 2 * (m + 1) := by ring
      rw [e, List.mem_append, ih (m + 1) (by omega) w r]
      simp only [List.mem_cons, Prod.mk.injEq, List.mem_singleton, List.not_mem_nil, or_false]
      constructor
      · rintro ((⟨h1, h2⟩ | ⟨h1, h2⟩ | ⟨h1, h2⟩ | ⟨h1, h2⟩) | ⟨k, d, h1, h2, h3, h4, h5⟩)
        · exact ⟨m, 0, le_refl m, hm, by omega, by omega, by omega⟩
        · exact ⟨m, 1, le_refl m, hm, by omega, by omega, by omega⟩
        · exact ⟨m, 2, le_refl m, hm, by omega, by omega, by omega⟩
        · exact ⟨m, 3, le_refl m, hm, by omega, by omega, by omega⟩
        · exact ⟨k, d, by omega, h2, h3, h4, h5⟩
      · rintro ⟨k, d, h1, h2, h3, h4, h5⟩
        by_cases hk : k = m
        · left
          omega
        · right
          exact ⟨k, d, by omega, h2, h3, h4, h5⟩
    · rw [if_neg hm]
      simp only [List.not_mem_nil, false_iff, not_exists]
      intro k d hk
      omega

/-- The template attributes and the index list do not depend on the position array. -/
theorem template_create_line_geometry {α : Type} [Zero α] (lp : List α) :
    (create_line_geometry lp).position = { array := instance_positions, itemSize := 3 } ∧
    (create_line_geometry lp).uv = { array := uvs, itemSize := 2 } ∧
    (create_line_geometry lp).index = index :=
  ⟨rfl, rfl, rfl⟩

/-- C12. The quad template built by `create_line_geometry` is the same for every input:
`position` holds exactly 8 vertices, `{-1,1} x {2,1,0,-1}` with `z = 0` (the `y` levels
`2, 1, 0, -1` in this order, each with `x = -1` then `x = 1`), `uv` holds exactly 8 pairs,
and the index list holds 18 indices (6 triangles), every one a vertex index in `0..7`. -/
theorem template_constant {α : Type} [Zero α] (lp : List α) :
    (create_line_geometry lp).position.array.length = 3 * 8 ∧
    (create_line_geometry lp).position.count = 8 ∧
    templateVertices (create_line_geometry lp)
      = (List.product [2, 1, 0, -1] [-1, 1]).map
          (fun p => (some p.2, some p.1, some 0)) ∧
    (create_line_geometry lp).uv.array.length = 2 * 8 ∧
    (create_line_geometry lp).uv.count = 8 ∧
    (create_line_geometry lp).index.length = 3 * 6 ∧
    (create_line_geometry lp).index.all (fun i => decide (i < 8)) = true := by
  obtain ⟨hp, hu, hi⟩ := template_create_line_geometry lp
  simp only [templateVertices, hp, hu, hi]
  decide

/-- C14. The UV buffer mirrors the vertex positions of the template: for each of the 8
vertices `k`, `uv[k].x = position[k].x`, `|uv[k].y| > 1` exactly when `position[k].y` is
outside `[0, 1]`, and `|uv[k].y| = 1` when `position[k].y` is `0` or `1`; the body vertices
are the vertices 2, 3, 4, 5, and every convex combination of their UVs has `|v.y| <= 1`. -/
theorem uv_mirrors_position {α : Type} [Zero α] {K : Type} [LinearOrderedField K]
    (lp : List α) :
    (∀ k : Nat, k < 8 → ∃ px py ux uy : Int,
      (create_line_geometry lp).position.getX k = some px ∧
      (create_line_geometry lp).position.getY k = some py ∧
      (create_line_geometry lp).uv.getX k = some ux ∧
      (create_line_geometry lp).uv.getY k = some uy ∧
      ux = px ∧ (1 < |uy| ↔ (py < 0 ∨ 1 < py)) ∧ ((py = 0 ∨ py = 1) → |uy| = 1) ∧
      ((py = 0 ∨ py = 1) ↔ (k = 2 ∨ k = 3 ∨ k = 4 ∨ k = 5))) ∧
    (∃ y2 y3 y4 y5 : Int,
      (create_line_geometry lp).uv.getY 2 = some y2 ∧
      (create_line_geometry lp).uv.getY 3 = some y3 ∧
      (create_line_geometry lp).uv.getY 4 = some y4 ∧
      (create_line_geometry lp).uv.getY 5 = some y5 ∧
      ∀ w2 w3 w4 w5 : K, 0 ≤ w2 → 0 ≤ w3 → 0 ≤ w4 → 0 ≤ w5 → w2 + w3 + w4 + w5 = 1 →
        |w2 * (y2 : K) + w3 * (y3 : K) + w4 * (y4 : K) + w5 * (y5 : K)| ≤ 1) := by
  obtain ⟨hp, hu, -⟩ := template_create_line_geometry lp
  rw [hp, hu]
  constructor
  · intro k hk
    interval_cases k
    · exact ⟨-1, 2, -1, 2, by decide, by decide, by decide, by decide, by decide⟩
    · exact ⟨1, 2, 1, 2, by decide, by decide, by decide, by decide, by decide⟩
    · exact ⟨-1, 1, -1, 1, by decide, by decide, by decide, by decide, by decide⟩
    · exact ⟨1, 1, 1, 1, by decide, by decide, by decide, by decide, by decide⟩
    · exact ⟨-1, 0, -1, -1, by decide, by decide, by decide, by decide, by decide⟩
    · exact ⟨1, 0, 1, -1, by decide, by decide, by decide, by decide, by decide⟩
    · exact ⟨-1, -1, -1, -2, by decide, by decide, by decide, by decide, by decide⟩
    · exact ⟨1, -1, 1, -2, by decide, by decide, by decide, by decide, by decide⟩
  · refine ⟨1, 1, -1, -1, by decide, by decide, by decide, by decide, ?_⟩
    intro w2 w3 w4 w5 h2 h3 h4 h5 hs
    rw [abs_le]
    push_cast
    constructor <;> linarith

/-- Witness of C14 on the template built for `[0,0, 1,0, 1,1]`, weights over `ℚ`. -/
theorem uv_mirrors_position_witness :
    (∀ k : Nat, k < 8 → ∃ px py ux uy : Int,
      (create_line_geometry ([0, 0, 1, 0, 1, 1] : List Int)).position.getX k = some px ∧
      (create_line_geometry ([0, 0, 1, 0, 1, 1] : List Int)).position.getY k = some py ∧
      (create_line_geometry ([0, 0, 1, 0, 1, 1] : List Int)).uv.getX k = some ux ∧
      (create_line_geometry ([0, 0, 1, 0, 1, 1] : List Int)).uv.getY k = some uy ∧
      ux = px ∧ (1 < |uy| ↔ (py < 0 ∨ 1 < py)) ∧ ((py = 0 ∨ py = 1) → |uy| = 1) ∧
      ((py = 0 ∨ py = 1) ↔ (k = 2 ∨ k = 3 ∨ k = 4 ∨ k = 5))) ∧
    (∃ y2 y3 y4 y5 : Int,
      (create_line_geometry ([0, 0, 1, 0, 1, 1] : List Int)).uv.getY 2 = some y2 ∧
      (create_line_geometry ([0, 0, 1, 0, 1, 1] : List Int)).uv.getY 3 = some y3 ∧
      (create_line_geometry ([0, 0, 1, 0, 1, 1] : List Int)).uv.getY 4 = some y4 ∧
      (create_line_geometry ([0, 0, 1, 0, 1, 1] : List Int)).uv.getY 5 = some y5 ∧
      ∀ w2 w3 w4 w5 : ℚ, 0 ≤ w2 → 0 ≤ w3 → 0 ≤ w4 → 0 ≤ w5 → w2 + w3 + w4 + w5 = 1 →
        |w2 * (y2 : ℚ) + w3 * (y3 : ℚ) + w4 * (y4 : ℚ) + w5 * (y5 : ℚ)| ≤ 1) :=
  uv_mirrors_position [0, 0, 1, 0, 1, 1]

/-- C13 (counterexample). On the odd-length array `[1, 2, 3, 4, 5]` the buffer has
`10 / 4 = 2` complete stride-4 slots, not zero; instance 0 is the segment
`(1,2) -> (3,4)`. -/
theorem odd_length_has_instances :
    ([1, 2, 3, 4, 5] : List Int).length % 2 = 1 ∧
    instanceCount (create_line_geometry ([1, 2, 3, 4, 5] : List Int)) = 2 ∧
    instanceCount (create_line_geometry ([1, 2, 3, 4, 5] : List Int)) ≠ 0 ∧
    startOf (create_line_geometry ([1, 2, 3, 4, 5] : List Int)) 0
      = some (F32.num 1, F32.num 2) ∧
    endOf (create_line_geometry ([1, 2, 3, 4, 5] : List Int)) 0
      = some (F32.num 3, F32.num 4) := by
  simp [instanceCount, InstancedInterleavedBuffer.count, startOf, endOf,
    InterleavedBufferAttribute.getX, InterleavedBufferAttribute.getY,
    create_line_geometry, linePoints, copyLoop, store, readPosition]

/-- C13 (amended). For an odd-length position array, of `2 * M + 1` floats,
`create_line_geometry` ignores the parity: every two consecutive complete points `p_i`,
`p_{i+1}` (`i + 2 <= M`) make an instance `p_i -> p_{i+1}` of the buffer, so the buffer
has instances as soon as `M >= 2`; for a single float (`M = 0`) it has none. -/
theorem odd_length_instances {α : Type} [Zero α] (lp : List α) (M : Nat)
    (hlen : lp.length = 2 * M + 1) :
    (M = 0 → instanceCount (create_line_geometry lp) = 0) ∧
    (∀ i : Nat, i + 2 ≤ M →
      i < instanceCount (create_line_geometry lp) ∧
      ∃ p q : α × α, pointAt lp i = some p ∧ pointAt lp (i + 1) = some q ∧
        startOf (create_line_geometry lp) i = some (F32.num p.1, F32.num p.2) ∧
        endOf (create_line_geometry lp) i = some (F32.num q.1, F32.num q.2)) := by
  constructor
  · intro hM
    rw [instanceCount_create_line_geometry, hlen, hM]
  · intro i hi
    have h0 : 2 * i < lp.length := by omega
    have h1 : 2 * i + 1 < lp.length := by omega
    have h2 : 2 * i + 2 < lp.length := by omega
    have h3 : 2 * i + 3 < lp.length := by omega
    refine ⟨by rw [instanceCount_create_line_geometry]; omega,
      (lp.get ⟨2 * i, h0⟩, lp.get ⟨2 * i + 1, h1⟩),
      (lp.get ⟨2 * i + 2, h2⟩, lp.get ⟨2 * i + 3, h3⟩), ?_, ?_, ?_, ?_⟩
    · simp [pointAt, List.getElem?_eq_getElem h0, List.getElem?_eq_getElem h1]
    · have e : 2 * (i + 1) = 2 * i + 2 := by ring
      simp [pointAt, e, List.getElem?_eq_getElem h2, List.getElem?_eq_getElem h3]
    · rw [startOf_create_line_geometry lp i (by omega), readPosition_of_lt lp _ h0,
        readPosition_of_lt lp _ h1]
    · rw [endOf_create_line_geometry lp i (by omega), readPosition_of_lt lp _ h2,
        readPosition_of_lt lp _ h3]

/-- Witness of the amended C13 on `[1, 2, 3, 4, 5]` (`M = 2`). -/
theorem odd_length_instances_witness :
    ([1, 2, 3, 4, 5] : List Int).length = 2 * 2 + 1 ∧
    ((2 = 0 → instanceCount (create_line_geometry ([1, 2, 3, 4, 5] : List Int)) = 0) ∧
     (∀ i : Nat, i + 2 ≤ 2 →
      i < instanceCount (create_line_geometry ([1, 2, 3, 4, 5] : List Int)) ∧
      ∃ p q : Int × Int, pointAt ([1, 2, 3, 4, 5] : List Int) i = some p ∧
        pointAt ([1, 2, 3, 4, 5] : List Int) (i + 1) = some q ∧
        startOf (create_line_geometry ([1, 2, 3, 4, 5] : List Int)) i
          = some (F32.num p.1, F32.num p.2) ∧
        endOf (create_line_geometry ([1, 2, 3, 4, 5] : List Int)) i
          = some (F32.num q.1, F32.num q.2))) :=
  ⟨by decide, odd_length_instances [1, 2, 3, 4, 5] 2 (by decide)⟩

/-- C19. For an even-length position array of `N >= 1` points the copy loop fills `points`
with exactly `N` stride-4 slots: the buffer has `4N` floats, every index the loop writes is
inside it, the last iteration (`i = length - 2`) writes floats `4N-2` and `4N-1` from
`linepositions[length]` and `linepositions[length + 1]`, which are past the end of the
input, and so the last slot has `instanceStart = p_{N-1}` and `instanceEnd = (NaN, NaN)`. -/
theorem last_slot_reads_past_end {α : Type} [Zero α] (lp : List α) (N : Nat)
    (hlen : lp.length = 2 * N) (hN : 1 ≤ N) :
    (linePoints lp).length = 4 * N ∧
    instanceCount (create_line_geometry lp) = N ∧
    linePoints lp = (copyLoopAccesses lp 0).foldl
      (fun pts a => store pts a.1 (readPosition lp a.2))
      (List.replicate (2 * lp.length) (F32.num (0 : α))) ∧
    (∀ a ∈ copyLoopAccesses lp 0, a.1 < 4 * N) ∧
    (4 * N - 2, lp.length) ∈ copyLoopAccesses lp 0 ∧
    (4 * N - 1, lp.length + 1) ∈ copyLoopAccesses lp 0 ∧
    lp[lp.length]? = none ∧ lp[lp.length + 1]? = none ∧
    (∃ p : α × α, pointAt lp (N - 1) = some p ∧
      startOf (create_line_geometry lp) (N - 1) = some (F32.num p.1, F32.num p.2)) ∧
    endOf (create_line_geometry lp) (N - 1) = some (F32.nan, F32.nan) := by
  have hmem := mem_copyLoopAccesses lp lp.length 0 (by omega)
  simp only [Nat.mul_zero] at hmem
  have h0 : 2 * (N - 1) < lp.length := by omega
  have h1 : 2 * (N - 1) + 1 < lp.length := by omega
  refine ⟨by rw [length_linePoints]; omega,
    by rw [instanceCount_create_line_geometry]; omega,
    copyLoop_eq_foldl lp lp.length 0 _ (by omega), ?_, ?_, ?_,
    List.getElem?_eq_none (le_refl _), List.getElem?_eq_none (by omega), ?_, ?_⟩
  · rintro ⟨w, r⟩ ha
    obtain ⟨k, d, -, h2, h3, h4, -⟩ := (hmem w r).1 ha
    show w < 4 * N
    omega
  · exact (hmem _ _).2 ⟨N - 1, 2, by omega, by omega, by omega, by omega, by omega⟩
  · exact (hmem _ _).2 ⟨N - 1, 3, by omega, by omega, by omega, by omega, by omega⟩
  · refine ⟨(lp.get ⟨2 * (N - 1), h0⟩, lp.get ⟨2 * (N - 1) + 1, h1⟩), ?_, ?_⟩
    · simp [pointAt, List.getElem?_eq_getElem h0, List.getElem?_eq_getElem h1]
    · rw [startOf_create_line_geometry lp (N - 1) (by omega), readPosition_of_lt lp _ h0,
        readPosition_of_lt lp _ h1]
  · rw [endOf_create_line_geometry lp (N - 1) (by omega),
      readPosition_of_ge lp _ (by omega), readPosition_of_ge lp _ (by omega)]

/-- Witness of C19 on the three points `[0,0, 1,0, 1,1]`. -/
theorem last_slot_reads_past_end_witness :
    (([0, 0, 1, 0, 1, 1] : List Int).length = 2 * 3 ∧ 1 ≤ 3) ∧
    ((linePoints ([0, 0, 1, 0, 1, 1] : List Int)).length = 4 * 3 ∧
    instanceCount (create_line_geometry ([0, 0, 1, 0, 1, 1] : List Int)) = 3 ∧
    linePoints ([0, 0, 1, 0, 1, 1] : List Int)
      = (copyLoopAccesses ([0, 0, 1, 0, 1, 1] : List Int) 0).foldl
        (fun pts a => store pts a.1 (readPosition ([0, 0, 1, 0, 1, 1] : List Int) a.2))
        (List.replicate (2 * ([0, 0, 1, 0, 1, 1] : List Int).length) (F32.num (0 : Int))) ∧
    (∀ a ∈ copyLoopAccesses ([0, 0, 1, 0, 1, 1] : List Int) 0, a.1 < 4 * 3) ∧
    (4 * 3 - 2, ([0, 0, 1, 0, 1, 1] : List Int).length)
      ∈ copyLoopAccesses ([0, 0, 1, 0, 1, 1] : List Int) 0 ∧
    (4 * 3 - 1, ([0, 0, 1, 0, 1, 1] : List Int).length + 1)
      ∈ copyLoopAccesses ([0, 0, 1, 0, 1, 1] : List Int) 0 ∧
    ([0, 0, 1, 0, 1, 1] : List Int)[([0, 0, 1, 0, 1, 1] : List Int).length]? = none ∧
    ([0, 0, 1, 0, 1, 1] : List Int)[([0, 0, 1, 0, 1, 1] : List Int).length + 1]? = none ∧
    (∃ p : Int × Int, pointAt ([0, 0, 1, 0, 1, 1] : List Int) (3 - 1) = some p ∧
      startOf (create_line_geometry ([0, 0, 1, 0, 1, 1] : List Int)) (3 - 1)
        = some (F32.num p.1, F32.num p.2)) ∧
    endOf (create_line_geometry ([0, 0, 1, 0, 1, 1] : List Int)) (3 - 1)
      = some (F32.nan, F32.nan)) :=
  ⟨by decide, last_slot_reads_past_end [0, 0, 1, 0, 1, 1] 3 (by decide) (by decide)⟩

/-! ### Claims on the shaders -/

section ShaderClaims

variable {K : Type} [LinearOrderedField K]

theorem sqrt_pos_of_pos (sqrt : K → K)
    (hsqrt : ∀ x : K, 0 ≤ x → 0 ≤ sqrt x ∧ sqrt x * sqrt x = x) {x : K} (hx : 0 < x) :
    0 < sqrt x := by
  obtain ⟨h0, h1⟩ := hsqrt x hx.le
  rcases h0.eq_or_lt with h | h
  · rw [← h] at h1
    simp at h1
    exact absurd h1 hx.ne
  · exact h

theorem sqrt_scale (sqrt : K → K)
    (hsqrt : ∀ x : K, 0 ≤ x → 0 ≤ sqrt x ∧ sqrt x * sqrt x = x) {c x : K}
    (hc : 0 ≤ c) (hx : 0 ≤ x) : sqrt (c * c * x) = c * sqrt x := by
  have hcx : 0 ≤ c * c * x := mul_nonneg (mul_self_nonneg c) hx
  obtain ⟨a0, a1⟩ := hsqrt _ hcx
  obtain ⟨b0, b1⟩ := hsqrt _ hx
  apply (mul_self_inj a0 (mul_nonneg hc b0)).1
  rw [a1]
  calc c * c * x = c * c * (sqrt x * sqrt x) := by rw [b1]
    _ = c * sqrt x * (c * sqrt x) := by ring

/-- The shader's aspect-corrected direction is the pixel-space direction up to the factor
`resolution.y / 2`, so the shader's unit offset direction is the pixel-space unit normal. -/
theorem pixelNormal_eq (sqrt : K → K)
    (hsqrt : ∀ x : K, 0 ≤ x → 0 ≤ sqrt x ∧ sqrt x * sqrt x = x)
    (res : Vec2 K) (cs ce : Vec4 K) (hrx : 0 < res.x) (hry : 0 < res.y)
    (hne : ndcXY cs ≠ ndcXY ce) :
    0 < sqrt ((ce.x / ce.w - cs.x / cs.w) * (res.x / res.y)
              * ((ce.x / ce.w - cs.x / cs.w) * (res.x / res.y))
            + (ce.y / ce.w - cs.y / cs.w) * (ce.y / ce.w - cs.y / cs.w)) ∧
    pixelNormal sqrt res cs ce
      = ⟨(ce.y / ce.w - cs.y / cs.w)
           / sqrt ((ce.x / ce.w - cs.x / cs.w) * (res.x / res.y)
              * ((ce.x / ce.w - cs.x / cs.w) * (res.x / res.y))
            + (ce.y / ce.w - cs.y / cs.w) * (ce.y / ce.w - cs.y / cs.w)),
         -((ce.x / ce.w - cs.x / cs.w) * (res.x / res.y))
           / sqrt ((ce.x / ce.w - cs.x / cs.w) * (res.x / res.y)
              * ((ce.x / ce.w - cs.x / cs.w) * (res.x / res.y))
            + (ce.y / ce.w - cs.y / cs.w) * (ce.y / ce.w - cs.y / cs.w))⟩ := by
  generalize hsx : cs.x / cs.w = sx at *
  generalize hsy : cs.y / cs.w = sy at *
  generalize hex : ce.x / ce.w = ex at *
  generalize hey : ce.y / ce.w = ey at *
  have hd : ¬ (ex - sx = 0 ∧ ey - sy = 0) := by
    rintro ⟨h1, h2⟩
    apply hne
    simp only [ndcXY, hsx, hsy, hex, hey]
    rw [sub_eq_zero.1 h1, sub_eq_zero.1 h2]
  have ha : 0 < res.x / res.y := div_pos hrx hry
  have hX : 0 < (ex - sx) * (res.x / res.y) * ((ex - sx) * (res.x / res.y))
      + (ey - sy) * (ey - sy) := by
    by_cases h1 : ex - sx = 0
    · have h2 : ey - sy ≠ 0 := fun h2 => hd ⟨h1, h2⟩
      have := mul_self_pos.2 h2
      have := mul_self_nonneg ((ex - sx) * (res.x / res.y))
      linarith
    · have h3 : (ex - sx) * (res.x / res.y) ≠ 0 := mul_ne_zero h1 ha.ne.symm
      have := mul_self_pos.2 h3
      have := mul_self_nonneg (ey - sy)
      linarith
  have hl := sqrt_pos_of_pos sqrt hsqrt hX
  refine ⟨hl, ?_⟩
  have hD : (ex * res.x / 2 - sx * res.x / 2) * (ex * res.x / 2 - sx * res.x / 2)
      + (ey * res.y / 2 - sy * res.y / 2) * (ey * res.y / 2 - sy * res.y / 2)
      = (res.y / 2) * (res.y / 2) * ((ex - sx) * (res.x / res.y) * ((ex - sx) * (res.x / res.y))
      + (ey - sy) * (ey - sy)) := by
    field_simp
    ring
  simp only [pixelNormal, pixelDir, toPixels, ndcXY, hsx, hsy, hex, hey]
  rw [hD, sqrt_scale sqrt hsqrt (by positivity) hX.le]
  have hry0 : res.y ≠ 0 := hry.ne.symm
  generalize sqrt ((ex - sx) * (res.x / res.y) * ((ex - sx) * (res.x / res.y))
    + (ey - sy) * (ey - sy)) = l at hl ⊢
  have hl0 : l ≠ 0 := hl.ne.symm
  congr 1
  · field_simp
    ring
  · field_simp
    ring

/-- The pixel displacement of a body vertex from its endpoint: `linewidth / 2` times the
pixel-space unit normal, negated on the side `position.x < 0`. -/
theorem vertexPixel_sub_selectedPixel (sqrt : K → K)
    (hsqrt : ∀ x : K, 0 ≤ x → 0 ≤ sqrt x ∧ sqrt x * sqrt x = x)
    (u : VertUniforms K) (inp : VertIn K)
    (hrx : 0 < u.resolution.x) (hry : 0 < u.resolution.y)
    (hws : (clipSegment u inp.instanceStart inp.instanceEnd).1.w ≠ 0)
    (hwe : (clipSegment u inp.instanceStart inp.instanceEnd).2.w ≠ 0)
    (hne : ndcXY (clipSegment u inp.instanceStart inp.instanceEnd).1
         ≠ ndcXY (clipSegment u inp.instanceStart inp.instanceEnd).2)
    (hy0 : 0 ≤ inp.position.y) (hy1 : inp.position.y ≤ 1) :
    (vertexPixel sqrt u inp).x - (selectedPixel u inp).x
      = (if inp.position.x < 0 then -1 else 1) * (u.linewidth / 2)
        * (pixelNormal sqrt u.resolution (clipSegment u inp.instanceStart inp.instanceEnd).1
            (clipSegment u inp.instanceStart inp.instanceEnd).2).x ∧
    (vertexPixel sqrt u inp).y - (selectedPixel u inp).y
      = (if inp.position.x < 0 then -1 else 1) * (u.linewidth / 2)
        * (pixelNormal sqrt u.resolution (clipSegment u inp.instanceStart inp.instanceEnd).1
            (clipSegment u inp.instanceStart inp.instanceEnd).2).y := by
  obtain ⟨hl, hn⟩ := pixelNormal_eq sqrt hsqrt u.resolution _ _ hrx hry hne
  rw [hn]
  simp only [vertexPixel, selectedPixel, LINES_VERT_main, screenOffset, normalize, toPixels,
    ndcXY]
  generalize clipSegment u inp.instanceStart inp.instanceEnd = clips at *
  obtain ⟨cs, ce⟩ := clips
  simp only at hws hwe hl ⊢
  generalize sqrt ((ce.x / ce.w - cs.x / cs.w) * (u.resolution.x / u.resolution.y)
      * ((ce.x / ce.w - cs.x / cs.w) * (u.resolution.x / u.resolution.y))
    + (ce.y / ce.w - cs.y / cs.w) * (ce.y / ce.w - cs.y / cs.w)) = l at hl ⊢
  have hl0 : l ≠ 0 := hl.ne.symm
  have hrx0 : u.resolution.x ≠ 0 := hrx.ne.symm
  have hry0 : u.resolution.y ≠ 0 := hry.ne.symm
  rw [if_neg (not_lt.mpr hy0), if_neg (not_lt.mpr hy1)]
  have key : ∀ c w o r : K, w ≠ 0 → (c + o * w) / w * r / 2 - c / w * r / 2 = o * r / 2 := by
    intro c w o r hw
    field_simp
    ring
  generalize ce.y / ce.w - cs.y / cs.w = dy
  generalize ce.x / ce.w - cs.x / cs.w = dx
  clear hn hne hsqrt
  by_cases hy : inp.position.y < 1 / 2 <;> by_cases hx : inp.position.x < 0
  · simp only [if_pos hy, if_pos hx, key _ _ _ _ hws]
    constructor <;> field_simp <;> ring
  · simp only [if_pos hy, if_neg hx, key _ _ _ _ hws]
    constructor <;> field_simp <;> ring
  · simp only [if_neg hy, if_pos hx, key _ _ _ _ hwe]
    constructor <;> field_simp <;> ring
  · simp only [if_neg hy, if_neg hx, key _ _ _ _ hwe]
    constructor <;> field_simp <;> ring

/-- C7. Constant screen-space width. Given `resolution.x > 0`, `resolution.y > 0`, the
two endpoints with non-zero clip `w` and distinct NDC `xy`, for a vertex with
`0 <= position.y <= 1` the pixel position of `gl_Position` differs from the pixel position
of the selected endpoint by `+(linewidth/2) * n` when `position.x > 0` and by
`-(linewidth/2) * n` when `position.x < 0`, where `n` is a unit vector perpendicular to the
segment direction in pixel space; so two vertices of the same instance at the same
`position.y`, one on each side, are `linewidth * n` apart. -/
theorem constant_pixel_width (sqrt : K → K)
    (hsqrt : ∀ x : K, 0 ≤ x → 0 ≤ sqrt x ∧ sqrt x * sqrt x = x)
    (u : VertUniforms K) (inp : VertIn K)
    (hrx : 0 < u.resolution.x) (hry : 0 < u.resolution.y)
    (hws : (clipSegment u inp.instanceStart inp.instanceEnd).1.w ≠ 0)
    (hwe : (clipSegment u inp.instanceStart inp.instanceEnd).2.w ≠ 0)
    (hne : ndcXY (clipSegment u inp.instanceStart inp.instanceEnd).1
         ≠ ndcXY (clipSegment u inp.instanceStart inp.instanceEnd).2)
    (hy0 : 0 ≤ inp.position.y) (hy1 : inp.position.y ≤ 1) :
    (0 < inp.position.x →
      (vertexPixel sqrt u inp).x - (selectedPixel u inp).x
        = u.linewidth / 2 * (segmentNormal sqrt u inp).x ∧
      (vertexPixel sqrt u inp).y - (selectedPixel u inp).y
        = u.linewidth / 2 * (segmentNormal sqrt u inp).y) ∧
    (inp.position.x < 0 →
      (vertexPixel sqrt u inp).x - (selectedPixel u inp).x
        = -(u.linewidth / 2) * (segmentNormal sqrt u inp).x ∧
      (vertexPixel sqrt u inp).y - (selectedPixel u inp).y
        = -(u.linewidth / 2) * (segmentNormal sqrt u inp).y) ∧
    (segmentNormal sqrt u inp).x * (segmentNormal sqrt u inp).x
      + (segmentNormal sqrt u inp).y * (segmentNormal sqrt u inp).y = 1 ∧
    (segmentNormal sqrt u inp).x * (segmentDir u inp).x
      + (segmentNormal sqrt u inp).y * (segmentDir u inp).y = 0 ∧
    (∀ other : VertIn K, other.instanceStart = inp.instanceStart →
      other.instanceEnd = inp.instanceEnd → other.position.y = inp.position.y →
      0 < inp.position.x → other.position.x < 0 →
      (vertexPixel sqrt u inp).x - (vertexPixel sqrt u other).x
        = u.linewidth * (segmentNormal sqrt u inp).x ∧
      (vertexPixel sqrt u inp).y - (vertexPixel sqrt u other).y
        = u.linewidth * (segmentNormal sqrt u inp).y) := by
  have hv := vertexPixel_sub_selectedPixel sqrt hsqrt u inp hrx hry hws hwe hne hy0 hy1
  simp only [segmentNormal, segmentDir]
  refine ⟨?_, ?_, ?_, ?_, ?_⟩
  · intro hx
    rw [if_neg (not_lt.mpr hx.le), one_mul] at hv
    exact hv
  · intro hx
    rw [if_pos hx, neg_one_mul] at hv
    exact hv
  · obtain ⟨hl, hn⟩ := pixelNormal_eq sqrt hsqrt u.resolution _ _ hrx hry hne
    rw [hn]
    simp only []
    generalize clipSegment u inp.instanceStart inp.instanceEnd = clips at *
    generalize hvx : (clips.2.x / clips.2.w - clips.1.x / clips.1.w)
      * (u.resolution.x / u.resolution.y) = vx at *
    generalize hvy : clips.2.y / clips.2.w - clips.1.y / clips.1.w = vy at *
    have hX := (hsqrt (vx * vx + vy * vy)
      (add_nonneg (mul_self_nonneg vx) (mul_self_nonneg vy))).2
    generalize sqrt (vx * vx + vy * vy) = l at hl hX ⊢
    have hl0 : l ≠ 0 := hl.ne.symm
    field_simp
    linear_combination -hX
  · obtain ⟨hl, hn⟩ := pixelNormal_eq sqrt hsqrt u.resolution _ _ hrx hry hne
    rw [hn]
    simp only [pixelDir, toPixels, ndcXY]
    generalize sqrt _ = l at hl ⊢
    have hl0 : l ≠ 0 := hl.ne.symm
    have hry0 : u.resolution.y ≠ 0 := hry.ne.symm
    field_simp
    ring
  · intro other h1 h2 h3 hx hox
    have ho := vertexPixel_sub_selectedPixel sqrt hsqrt u other hrx hry
      (by rw [h1, h2]; exact hws) (by rw [h1, h2]; exact hwe) (by rw [h1, h2]; exact hne)
      (by rw [h3]; exact hy0) (by rw [h3]; exact hy1)
    have hsel : selectedPixel u other = selectedPixel u inp := by
      simp only [selectedPixel, h1, h2, h3]
    rw [if_neg (not_lt.mpr hx.le), one_mul] at hv
    rw [if_pos hox, neg_one_mul, hsel, h1, h2] at ho
    constructor
    · linear_combination hv.1 - ho.1
    · linear_combination hv.2 - ho.2

/-- The clip-space endpoints of the sample body vertex under the orthographic uniforms. -/
theorem clipSegment_bodyVertex :
    clipSegment (orthographicUniforms : VertUniforms ℝ) (bodyVertex : VertIn ℝ).instanceStart
      (bodyVertex : VertIn ℝ).instanceEnd = (⟨-1, 0, -1, 1⟩, ⟨1, 0, 1, 1⟩) := by
  simp [clipSegment, cameraSegment, trimStage, cameraEndpoints, orthographicUniforms,
    bodyVertex, Mat4.mul, Mat4.mulVec, tiltView, identity4, Mat4.ofColumns, Vec4.get]

/-- Witness of C7 over the reals with `Real.sqrt`: the body vertex `(1, 1, 0)` of the
segment `(-1, 0) -> (1, 0)`, orthographic uniforms, 800 x 600 viewport, `linewidth = 4`. -/
theorem constant_pixel_width_witness :
    ((∀ x : ℝ, 0 ≤ x → 0 ≤ Real.sqrt x ∧ Real.sqrt x * Real.sqrt x = x) ∧
      0 < (orthographicUniforms : VertUniforms ℝ).resolution.x ∧
      0 < (orthographicUniforms : VertUniforms ℝ).resolution.y ∧
      (clipSegment (orthographicUniforms : VertUniforms ℝ)
        (bodyVertex : VertIn ℝ).instanceStart (bodyVertex : VertIn ℝ).instanceEnd).1.w ≠ 0 ∧
      (clipSegment (orthographicUniforms : VertUniforms ℝ)
        (bodyVertex : VertIn ℝ).instanceStart (bodyVertex : VertIn ℝ).instanceEnd).2.w ≠ 0 ∧
      ndcXY (clipSegment (orthographicUniforms : VertUniforms ℝ)
        (bodyVertex : VertIn ℝ).instanceStart (bodyVertex : VertIn ℝ).instanceEnd).1
        ≠ ndcXY (clipSegment (orthographicUniforms : VertUniforms ℝ)
        (bodyVertex : VertIn ℝ).instanceStart (bodyVertex : VertIn ℝ).instanceEnd).2 ∧
      0 ≤ (bodyVertex : VertIn ℝ).position.y ∧ (bodyVertex : VertIn ℝ).position.y ≤ 1) ∧
    ((0 < (bodyVertex : VertIn ℝ).position.x →
        (vertexPixel Real.sqrt (orthographicUniforms : VertUniforms ℝ)
          (bodyVertex : VertIn ℝ)).x - (selectedPixel (orthographicUniforms : VertUniforms ℝ)
          (bodyVertex : VertIn ℝ)).x
          = (orthographicUniforms : VertUniforms ℝ).linewidth / 2
            * (segmentNormal Real.sqrt (orthographicUniforms : VertUniforms ℝ)
            (bodyVertex : VertIn ℝ)).x ∧
        (vertexPixel Real.sqrt (orthographicUniforms : VertUniforms ℝ)
          (bodyVertex : VertIn ℝ)).y - (selectedPixel (orthographicUniforms : VertUniforms ℝ)
          (bodyVertex : VertIn ℝ)).y
          = (orthographicUniforms : VertUniforms ℝ).linewidth / 2
            * (segmentNormal Real.sqrt (orthographicUniforms : VertUniforms ℝ)
            (bodyVertex : VertIn ℝ)).y) ∧
     ((bodyVertex : VertIn ℝ).position.x < 0 →
        (vertexPixel Real.sqrt (orthographicUniforms : VertUniforms ℝ)
          (bodyVertex : VertIn ℝ)).x - (selectedPixel (orthographicUniforms : VertUniforms ℝ)
          (bodyVertex : VertIn ℝ)).x
          = -((orthographicUniforms : VertUniforms ℝ).linewidth / 2)
            * (segmentNormal Real.sqrt (orthographicUniforms : VertUniforms ℝ)
            (bodyVertex : VertIn ℝ)).x ∧
        (vertexPixel Real.sqrt (orthographicUniforms : VertUniforms ℝ)
          (bodyVertex : VertIn ℝ)).y - (selectedPixel (orthographicUniforms : VertUniforms ℝ)
          (bodyVertex : VertIn ℝ)).y
          = -((orthographicUniforms : VertUniforms ℝ).linewidth / 2)
            * (segmentNormal Real.sqrt (orthographicUniforms : VertUniforms ℝ)
            (bodyVertex : VertIn ℝ)).y) ∧
     (segmentNormal Real.sqrt (orthographicUniforms : VertUniforms ℝ)
        (bodyVertex : VertIn ℝ)).x
        * (segmentNormal Real.sqrt (orthographicUniforms : VertUniforms ℝ)
        (bodyVertex : VertIn ℝ)).x
      + (segmentNormal Real.sqrt (orthographicUniforms : VertUniforms ℝ)
        (bodyVertex : VertIn ℝ)).y
        * (segmentNormal Real.sqrt (orthographicUniforms : VertUniforms ℝ)
        (bodyVertex : VertIn ℝ)).y = 1 ∧
     (segmentNormal Real.sqrt (orthographicUniforms : VertUniforms ℝ)
        (bodyVertex : VertIn ℝ)).x
        * (segmentDir (orthographicUniforms : VertUniforms ℝ)
        (bodyVertex : VertIn ℝ)).x
      + (segmentNormal Real.sqrt (orthographicUniforms : VertUniforms ℝ)
        (bodyVertex : VertIn ℝ)).y
        * (segmentDir (orthographicUniforms : VertUniforms ℝ)
        (bodyVertex : VertIn ℝ)).y = 0 ∧
     (∀ other : VertIn ℝ, other.instanceStart = (bodyVertex : VertIn ℝ).instanceStart →
        other.instanceEnd = (bodyVertex : VertIn ℝ).instanceEnd →
        other.position.y = (bodyVertex : VertIn ℝ).position.y →
        0 < (bodyVertex : VertIn ℝ).position.x → other.position.x < 0 →
        (vertexPixel Real.sqrt (orthographicUniforms : VertUniforms ℝ)
          (bodyVertex : VertIn ℝ)).x
            - (vertexPixel Real.sqrt (orthographicUniforms : VertUniforms ℝ) other).x
          = (orthographicUniforms : VertUniforms ℝ).linewidth
            * (segmentNormal Real.sqrt (orthographicUniforms : VertUniforms ℝ)
            (bodyVertex : VertIn ℝ)).x ∧
        (vertexPixel Real.sqrt (orthographicUniforms : VertUniforms ℝ)
          (bodyVertex : VertIn ℝ)).y
            - (vertexPixel Real.sqrt (orthographicUniforms : VertUniforms ℝ) other).y
          = (orthographicUniforms : VertUniforms ℝ).linewidth
            * (segmentNormal Real.sqrt (orthographicUniforms : VertUniforms ℝ)
            (bodyVertex : VertIn ℝ)).y)) :=
  ⟨⟨fun x hx => ⟨Real.sqrt_nonneg x, Real.mul_self_sqrt hx⟩,
    by norm_num [orthographicUniforms], by norm_num [orthographicUniforms],
    by rw [clipSegment_bodyVertex]; norm_num,
    by rw [clipSegment_bodyVertex]; norm_num,
    by rw [clipSegment_bodyVertex]; norm_num [ndcXY],
    by norm_num [bodyVertex], by norm_num [bodyVertex]⟩,
   constant_pixel_width Real.sqrt
     (fun x hx => ⟨Real.sqrt_nonneg x, Real.mul_self_sqrt hx⟩)
     (orthographicUniforms : VertUniforms ℝ) (bodyVertex : VertIn ℝ)
     (by norm_num [orthographicUniforms]) (by norm_num [orthographicUniforms])
     (by rw [clipSegment_bodyVertex]; norm_num)
     (by rw [clipSegment_bodyVertex]; norm_num)
     (by rw [clipSegment_bodyVertex]; norm_num [ndcXY])
     (by norm_num [bodyVertex]) (by norm_num [bodyVertex])⟩

/-- The length of the pixel-space direction is `resolution.y / 2` times the length of the
aspect-corrected NDC direction that the shader normalises. -/
theorem pixelLength_eq (sqrt : K → K)
    (hsqrt : ∀ x : K, 0 ≤ x → 0 ≤ sqrt x ∧ sqrt x * sqrt x = x)
    (res : Vec2 K) (cs ce : Vec4 K) (hry : 0 < res.y) :
    sqrt ((pixelDir res cs ce).x * (pixelDir res cs ce).x
        + (pixelDir res cs ce).y * (pixelDir res cs ce).y)
      = res.y / 2 * sqrt ((ce.x / ce.w - cs.x / cs.w) * (res.x / res.y)
              * ((ce.x / ce.w - cs.x / cs.w) * (res.x / res.y))
            + (ce.y / ce.w - cs.y / cs.w) * (ce.y / ce.w - cs.y / cs.w)) := by
  simp only [pixelDir, toPixels, ndcXY]
  generalize cs.x / cs.w = sx
  generalize cs.y / cs.w = sy
  generalize ce.x / ce.w = ex
  generalize ce.y / ce.w = ey
  have hX : 0 ≤ (ex - sx) * (res.x / res.y) * ((ex - sx) * (res.x / res.y))
      + (ey - sy) * (ey - sy) :=
    add_nonneg (mul_self_nonneg _) (mul_self_nonneg _)
  have hD : (ex * res.x / 2 - sx * res.x / 2) * (ex * res.x / 2 - sx * res.x / 2)
      + (ey * res.y / 2 - sy * res.y / 2) * (ey * res.y / 2 - sy * res.y / 2)
      = (res.y / 2) * (res.y / 2) * ((ex - sx) * (res.x / res.y) * ((ex - sx) * (res.x / res.y))
      + (ey - sy) * (ey - sy)) := by
    field_simp
    ring
  rw [hD, sqrt_scale sqrt hsqrt (by positivity) hX]

/-- The value of `offset` before line 115, in closed form: the side sign times the rotated
unit direction plus the cap sign times the unit direction (both with the aspect correction
undone on `x`), times `linewidth / resolution.y`. -/
theorem screenOffset_eq (sqrt : K → K) (linewidth : K) (resolution : Vec2 K)
    (position : Vec3 K) (cs ce : Vec4 K) :
    screenOffset sqrt linewidth resolution position cs ce
      = ⟨((if position.x < 0 then -1 else 1)
            * ((ce.y / ce.w - cs.y / cs.w)
              / sqrt ((ce.x / ce.w - cs.x / cs.w) * (resolution.x / resolution.y)
                  * ((ce.x / ce.w - cs.x / cs.w) * (resolution.x / resolution.y))
                + (ce.y / ce.w - cs.y / cs.w) * (ce.y / ce.w - cs.y / cs.w))
              / (resolution.x / resolution.y))
          + (if position.y < 0 then -1 else if position.y > 1 then 1 else 0)
            * ((ce.x / ce.w - cs.x / cs.w) * (resolution.x / resolution.y)
              / sqrt ((ce.x / ce.w - cs.x / cs.w) * (resolution.x / resolution.y)
                  * ((ce.x / ce.w - cs.x / cs.w) * (resolution.x / resolution.y))
                + (ce.y / ce.w - cs.y / cs.w) * (ce.y / ce.w - cs.y / cs.w))
              / (resolution.x / resolution.y))) * linewidth / resolution.y,
         ((if position.x < 0 then -1 else 1)
            * -((ce.x / ce.w - cs.x / cs.w) * (resolution.x / resolution.y)
              / sqrt ((ce.x / ce.w - cs.x / cs.w) * (resolution.x / resolution.y)
                  * ((ce.x / ce.w - cs.x / cs.w) * (resolution.x / resolution.y))
                + (ce.y / ce.w - cs.y / cs.w) * (ce.y / ce.w - cs.y / cs.w)))
          + (if position.y < 0 then -1 else if position.y > 1 then 1 else 0)
            * ((ce.y / ce.w - cs.y / cs.w)
              / sqrt ((ce.x / ce.w - cs.x / cs.w) * (resolution.x / resolution.y)
                  * ((ce.x / ce.w - cs.x / cs.w) * (resolution.x / resolution.y))
                + (ce.y / ce.w - cs.y / cs.w) * (ce.y / ce.w - cs.y / cs.w))))
            * linewidth / resolution.y⟩ := by
  simp only [screenOffset, normalize]
  generalize sqrt ((ce.x / ce.w - cs.x / cs.w) * (resolution.x / resolution.y)
      * ((ce.x / ce.w - cs.x / cs.w) * (resolution.x / resolution.y))
    + (ce.y / ce.w - cs.y / cs.w) * (ce.y / ce.w - cs.y / cs.w)) = l
  generalize ce.y / ce.w - cs.y / cs.w = dy
  generalize (ce.x / ce.w - cs.x / cs.w) * (resolution.x / resolution.y) = vx
  generalize resolution.x / resolution.y = a
  by_cases hx : position.x < 0 <;> by_cases hy0 : position.y < 0 <;>
    by_cases hy1 : position.y > 1 <;>
    simp only [hx, hy0, hy1, if_true, if_false] <;> congr 1 <;> ring

/-- The output `gl_Position` is the selected clip point with `offset * clip.w` added to its
`xy` (lines 111-119). -/
theorem gl_Position_eq (sqrt : K → K) (u : VertUniforms K) (inp : VertIn K) :
    (LINES_VERT_main sqrt u inp).gl_Position
      = ⟨(selectedClip u inp).x + (vertexOffset sqrt u inp).x * (selectedClip u inp).w,
         (selectedClip u inp).y + (vertexOffset sqrt u inp).y * (selectedClip u inp).w,
         (selectedClip u inp).z, (selectedClip u inp).w⟩ :=
  rfl

theorem selectedClip_w_ne_zero (u : VertUniforms K) (inp : VertIn K)
    (hws : (clipSegment u inp.instanceStart inp.instanceEnd).1.w ≠ 0)
    (hwe : (clipSegment u inp.instanceStart inp.instanceEnd).2.w ≠ 0) :
    (selectedClip u inp).w ≠ 0 := by
  simp only [selectedClip]
  split_ifs
  · exact hws
  · exact hwe

/-- In pixels a vertex is displaced from its endpoint by `offset` (before the
multiplication by `clip.w`) scaled by half the resolution. -/
theorem vertexPixel_sub_selectedPixel_offset (sqrt : K → K) (u : VertUniforms K)
    (inp : VertIn K) (hw : (selectedClip u inp).w ≠ 0) :
    (vertexPixel sqrt u inp).x - (selectedPixel u inp).x
      = (vertexOffset sqrt u inp).x * u.resolution.x / 2 ∧
    (vertexPixel sqrt u inp).y - (selectedPixel u inp).y
      = (vertexOffset sqrt u inp).y * u.resolution.y / 2 := by
  have hsel : selectedPixel u inp = toPixels u.resolution (ndcXY (selectedClip u inp)) := rfl
  rw [hsel]
  simp only [vertexPixel, gl_Position_eq, toPixels, ndcXY]
  generalize selectedClip u inp = sel at hw ⊢
  generalize vertexOffset sqrt u inp = off
  constructor <;> field_simp <;> ring

/-- The pixel displacement of any vertex from its endpoint: `linewidth / 2` times the unit
normal, negated on the side `position.x < 0`, plus `linewidth / 2` times the unit tangent,
backwards for `position.y < 0`, forwards for `position.y > 1`, absent in between. -/
theorem vertexPixel_sub_selectedPixel_caps (sqrt : K → K)
    (hsqrt : ∀ x : K, 0 ≤ x → 0 ≤ sqrt x ∧ sqrt x * sqrt x = x)
    (u : VertUniforms K) (inp : VertIn K)
    (hrx : 0 < u.resolution.x) (hry : 0 < u.resolution.y)
    (hws : (clipSegment u inp.instanceStart inp.instanceEnd).1.w ≠ 0)
    (hwe : (clipSegment u inp.instanceStart inp.instanceEnd).2.w ≠ 0)
    (hne : ndcXY (clipSegment u inp.instanceStart inp.instanceEnd).1
         ≠ ndcXY (clipSegment u inp.instanceStart inp.instanceEnd).2) :
    (vertexPixel sqrt u inp).x - (selectedPixel u inp).x
      = (if inp.position.x < 0 then -1 else 1) * (u.linewidth / 2)
          * (segmentNormal sqrt u inp).x
        + (if inp.position.y < 0 then -1 else if inp.position.y > 1 then 1 else 0)
          * (u.linewidth / 2) * (segmentTangent sqrt u inp).x ∧
    (vertexPixel sqrt u inp).y - (selectedPixel u inp).y
      = (if inp.position.x < 0 then -1 else 1) * (u.linewidth / 2)
          * (segmentNormal sqrt u inp).y
        + (if inp.position.y < 0 then -1 else if inp.position.y > 1 then 1 else 0)
          * (u.linewidth / 2) * (segmentTangent sqrt u inp).y := by
  obtain ⟨hl, hn⟩ := pixelNormal_eq sqrt hsqrt u.resolution _ _ hrx hry hne
  have hlen := pixelLength_eq sqrt hsqrt u.resolution
    (clipSegment u inp.instanceStart inp.instanceEnd).1
    (clipSegment u inp.instanceStart inp.instanceEnd).2 hry
  obtain ⟨hox, hoy⟩ := vertexPixel_sub_selectedPixel_offset sqrt u inp
    (selectedClip_w_ne_zero u inp hws hwe)
  rw [hox, hoy]
  simp only [segmentNormal, segmentTangent, segmentDir, vertexOffset]
  rw [hn, hlen, screenOffset_eq]
  simp only [pixelDir, toPixels, ndcXY]
  generalize clipSegment u inp.instanceStart inp.instanceEnd = clips at *
  obtain ⟨cs, ce⟩ := clips
  simp only at hl ⊢
  generalize sqrt ((ce.x / ce.w - cs.x / cs.w) * (u.resolution.x / u.resolution.y)
      * ((ce.x / ce.w - cs.x / cs.w) * (u.resolution.x / u.resolution.y))
    + (ce.y / ce.w - cs.y / cs.w) * (ce.y / ce.w - cs.y / cs.w)) = l at hl ⊢
  have hl0 : l ≠ 0 := hl.ne.symm
  have hrx0 : u.resolution.x ≠ 0 := hrx.ne.symm
  have hry0 : u.resolution.y ≠ 0 := hry.ne.symm
  have hsub : ∀ a b r : K, a * r / 2 - b * r / 2 = (a - b) * r / 2 := by
    intro a b r
    ring
  simp only [hsub]
  generalize ce.y / ce.w - cs.y / cs.w = dy
  generalize ce.x / ce.w - cs.x / cs.w = dx
  clear hn hne hsqrt hlen hrx hry hl hox hoy hws hwe
  generalize u.resolution.x = rx at hrx0 ⊢
  generalize u.resolution.y = ry at hry0 ⊢
  generalize u.linewidth = lw
  generalize (if inp.position.x < 0 then (-1 : K) else 1) = side
  generalize (if inp.position.y < 0 then (-1 : K) else if inp.position.y > 1 then 1 else 0)
    = cap
  constructor <;> field_simp <;> ring

/-- C17. Perspective-correct offset: `gl_Position` is the selected clip point (`clipStart`
when `position.y < 0.5`, else `clipEnd`) with only its `xy` changed, by `offset * w`; its
`z` and `w` are those of the selected clip point, and when that `w` is non-zero the NDC
`xy` of `gl_Position` is the NDC `xy` of the selected endpoint plus the offset as it was
before the multiplication by `w`. -/
theorem gl_Position_perspective_correct (sqrt : K → K) (u : VertUniforms K)
    (inp : VertIn K) :
    (inp.position.y < 1 / 2 →
      selectedClip u inp = (clipSegment u inp.instanceStart inp.instanceEnd).1) ∧
    (¬ inp.position.y < 1 / 2 →
      selectedClip u inp = (clipSegment u inp.instanceStart inp.instanceEnd).2) ∧
    (LINES_VERT_main sqrt u inp).gl_Position
      = ⟨(selectedClip u inp).x + (vertexOffset sqrt u inp).x * (selectedClip u inp).w,
         (selectedClip u inp).y + (vertexOffset sqrt u inp).y * (selectedClip u inp).w,
         (selectedClip u inp).z, (selectedClip u inp).w⟩ ∧
    (LINES_VERT_main sqrt u inp).gl_Position.z = (selectedClip u inp).z ∧
    (LINES_VERT_main sqrt u inp).gl_Position.w = (selectedClip u inp).w ∧
    ((selectedClip u inp).w ≠ 0 →
      (ndcXY (LINES_VERT_main sqrt u inp).gl_Position).x
        = (ndcXY (selectedClip u inp)).x + (vertexOffset sqrt u inp).x ∧
      (ndcXY (LINES_VERT_main sqrt u inp).gl_Position).y
        = (ndcXY (selectedClip u inp)).y + (vertexOffset sqrt u inp).y) := by
  refine ⟨fun h => ?_, fun h => ?_, gl_Position_eq sqrt u inp, ?_, ?_, ?_⟩
  · simp only [selectedClip, if_pos h]
  · simp only [selectedClip, if_neg h]
  · rw [gl_Position_eq]
  · rw [gl_Position_eq]
  · intro hw
    rw [gl_Position_eq]
    simp only [ndcXY]
    generalize selectedClip u inp = sel at hw ⊢
    generalize vertexOffset sqrt u inp = off
    constructor <;> field_simp

/-- The selected clip point of the sample body vertex is `clipEnd = (1, 0, 1, 1)`. -/
theorem selectedClip_bodyVertex :
    selectedClip (orthographicUniforms : VertUniforms ℝ) (bodyVertex : VertIn ℝ)
        = ⟨1, 0, 1, 1⟩ := by
  have h : ¬ ((bodyVertex : VertIn ℝ).position.y < 1 / 2) := by norm_num [bodyVertex]
  simp only [selectedClip, if_neg h, clipSegment_bodyVertex]

/-- Witness of C17 over the reals: the body vertex `(1, 1, 0)` of the segment
`(-1, 0) -> (1, 0)` under the orthographic uniforms; its clip `w` is `1`. -/
theorem gl_Position_perspective_correct_witness :
    (selectedClip (orthographicUniforms : VertUniforms ℝ) (bodyVertex : VertIn ℝ)).w ≠ 0 ∧
    (((bodyVertex : VertIn ℝ).position.y < 1 / 2 →
      selectedClip (orthographicUniforms : VertUniforms ℝ) (bodyVertex : VertIn ℝ)
        = (clipSegment (orthographicUniforms : VertUniforms ℝ)
            (bodyVertex : VertIn ℝ).instanceStart (bodyVertex : VertIn ℝ).instanceEnd).1) ∧
    (¬ (bodyVertex : VertIn ℝ).position.y < 1 / 2 →
      selectedClip (orthographicUniforms : VertUniforms ℝ) (bodyVertex : VertIn ℝ)
        = (clipSegment (orthographicUniforms : VertUniforms ℝ)
            (bodyVertex : VertIn ℝ).instanceStart (bodyVertex : VertIn ℝ).instanceEnd).2) ∧
    (LINES_VERT_main Real.sqrt (orthographicUniforms : VertUniforms ℝ)
        (bodyVertex : VertIn ℝ)).gl_Position
      = ⟨(selectedClip (orthographicUniforms : VertUniforms ℝ) (bodyVertex : VertIn ℝ)).x
          + (vertexOffset Real.sqrt (orthographicUniforms : VertUniforms ℝ)
              (bodyVertex : VertIn ℝ)).x
            * (selectedClip (orthographicUniforms : VertUniforms ℝ) (bodyVertex : VertIn ℝ)).w,
         (selectedClip (orthographicUniforms : VertUniforms ℝ) (bodyVertex : VertIn ℝ)).y
          + (vertexOffset Real.sqrt (orthographicUniforms : VertUniforms ℝ)
              (bodyVertex : VertIn ℝ)).y
            * (selectedClip (orthographicUniforms : VertUniforms ℝ) (bodyVertex : VertIn ℝ)).w,
         (selectedClip (orthographicUniforms : VertUniforms ℝ) (bodyVertex : VertIn ℝ)).z,
         (selectedClip (orthographicUniforms : VertUniforms ℝ) (bodyVertex : VertIn ℝ)).w⟩ ∧
    (LINES_VERT_main Real.sqrt (orthographicUniforms : VertUniforms ℝ)
        (bodyVertex : VertIn ℝ)).gl_Position.z
      = (selectedClip (orthographicUniforms : VertUniforms ℝ) (bodyVertex : VertIn ℝ)).z ∧
    (LINES_VERT_main Real.sqrt (orthographicUniforms : VertUniforms ℝ)
        (bodyVertex : VertIn ℝ)).gl_Position.w
      = (selectedClip (orthographicUniforms : VertUniforms ℝ) (bodyVertex : VertIn ℝ)).w ∧
    ((selectedClip (orthographicUniforms : VertUniforms ℝ) (bodyVertex : VertIn ℝ)).w ≠ 0 →
      (ndcXY (LINES_VERT_main Real.sqrt (orthographicUniforms : VertUniforms ℝ)
          (bodyVertex : VertIn ℝ)).gl_Position).x
        = (ndcXY (selectedClip (orthographicUniforms : VertUniforms ℝ) (bodyVertex : VertIn ℝ))).x
          + (vertexOffset Real.sqrt (orthographicUniforms : VertUniforms ℝ)
              (bodyVertex : VertIn ℝ)).x ∧
      (ndcXY (LINES_VERT_main Real.sqrt (orthographicUniforms : VertUniforms ℝ)
          (bodyVertex : VertIn ℝ)).gl_Position).y
        = (ndcXY (selectedClip (orthographicUniforms : VertUniforms ℝ) (bodyVertex : VertIn ℝ))).y
          + (vertexOffset Real.sqrt (orthographicUniforms : VertUniforms ℝ)
              (bodyVertex : VertIn ℝ)).y)) :=
  ⟨by rw [selectedClip_bodyVertex]; norm_num,
   gl_Position_perspective_correct Real.sqrt (orthographicUniforms : VertUniforms ℝ)
       (bodyVertex : VertIn ℝ)⟩

/-- C18. Square caps: given `resolution.x > 0`, `resolution.y > 0`, non-zero clip `w` and
distinct NDC endpoints, a vertex with `position.y < 0` is displaced from the start point,
in addition to its sideways offset, by `linewidth / 2` pixels against the unit direction of
the segment in pixel space, a vertex with `position.y > 1` from the end point by
`linewidth / 2` pixels along that direction, and a vertex with `0 <= position.y <= 1` has
no displacement along the segment. -/
theorem square_caps (sqrt : K → K)
    (hsqrt : ∀ x : K, 0 ≤ x → 0 ≤ sqrt x ∧ sqrt x * sqrt x = x)
    (u : VertUniforms K) (inp : VertIn K)
    (hrx : 0 < u.resolution.x) (hry : 0 < u.resolution.y)
    (hws : (clipSegment u inp.instanceStart inp.instanceEnd).1.w ≠ 0)
    (hwe : (clipSegment u inp.instanceStart inp.instanceEnd).2.w ≠ 0)
    (hne : ndcXY (clipSegment u inp.instanceStart inp.instanceEnd).1
         ≠ ndcXY (clipSegment u inp.instanceStart inp.instanceEnd).2) :
    (inp.position.y < 0 →
      selectedPixel u inp = startPixel u inp ∧
      (vertexPixel sqrt u inp).x - (startPixel u inp).x
        = (if inp.position.x < 0 then -1 else 1) * (u.linewidth / 2)
            * (segmentNormal sqrt u inp).x
          - u.linewidth / 2 * (segmentTangent sqrt u inp).x ∧
      (vertexPixel sqrt u inp).y - (startPixel u inp).y
        = (if inp.position.x < 0 then -1 else 1) * (u.linewidth / 2)
            * (segmentNormal sqrt u inp).y
          - u.linewidth / 2 * (segmentTangent sqrt u inp).y) ∧
    (1 < inp.position.y →
      selectedPixel u inp = endPixel u inp ∧
      (vertexPixel sqrt u inp).x - (endPixel u inp).x
        = (if inp.position.x < 0 then -1 else 1) * (u.linewidth / 2)
            * (segmentNormal sqrt u inp).x
          + u.linewidth / 2 * (segmentTangent sqrt u inp).x ∧
      (vertexPixel sqrt u inp).y - (endPixel u inp).y
        = (if inp.position.x < 0 then -1 else 1) * (u.linewidth / 2)
            * (segmentNormal sqrt u inp).y
          + u.linewidth / 2 * (segmentTangent sqrt u inp).y) ∧
    (0 ≤ inp.position.y → inp.position.y ≤ 1 →
      (vertexPixel sqrt u inp).x - (selectedPixel u inp).x
        = (if inp.position.x < 0 then -1 else 1) * (u.linewidth / 2)
            * (segmentNormal sqrt u inp).x ∧
      (vertexPixel sqrt u inp).y - (selectedPixel u inp).y
        = (if inp.position.x < 0 then -1 else 1) * (u.linewidth / 2)
            * (segmentNormal sqrt u inp).y) ∧
    (segmentTangent sqrt u inp).x * (segmentTangent sqrt u inp).x
      + (segmentTangent sqrt u inp).y * (segmentTangent sqrt u inp).y = 1 ∧
    (∃ len : K, 0 < len ∧
      (segmentDir u inp).x = len * (segmentTangent sqrt u inp).x ∧
      (segmentDir u inp).y = len * (segmentTangent sqrt u inp).y) := by
  have hv := vertexPixel_sub_selectedPixel_caps sqrt hsqrt u inp hrx hry hws hwe hne
  refine ⟨fun hy => ?_, fun hy => ?_, fun hy0 hy1 => ?_, ?_, ?_⟩
  · have hsel : selectedPixel u inp = startPixel u inp := by
      simp only [selectedPixel, startPixel, if_pos (show inp.position.y < 1 / 2 by linarith)]
    rw [if_pos hy, hsel] at hv
    refine ⟨hsel, ?_, ?_⟩
    · rw [hv.1]; ring
    · rw [hv.2]; ring
  · have hsel : selectedPixel u inp = endPixel u inp := by
      simp only [selectedPixel, endPixel,
        if_neg (show ¬ inp.position.y < 1 / 2 by linarith)]
    rw [if_neg (not_lt.mpr (le_of_lt (lt_trans zero_lt_one hy))), if_pos hy, hsel] at hv
    refine ⟨hsel, ?_, ?_⟩
    · rw [hv.1]; ring
    · rw [hv.2]; ring
  · rw [if_neg (not_lt.mpr hy0), if_neg (not_lt.mpr hy1)] at hv
    constructor
    · rw [hv.1]; ring
    · rw [hv.2]; ring
  · obtain ⟨hl, -⟩ := pixelNormal_eq sqrt hsqrt u.resolution _ _ hrx hry hne
    have hlen := pixelLength_eq sqrt hsqrt u.resolution
      (clipSegment u inp.instanceStart inp.instanceEnd).1
      (clipSegment u inp.instanceStart inp.instanceEnd).2 hry
    have hpos : 0 < sqrt ((segmentDir u inp).x * (segmentDir u inp).x
        + (segmentDir u inp).y * (segmentDir u inp).y) := by
      simp only [segmentDir]
      rw [hlen]
      exact mul_pos (by linarith) hl
    have hsq := (hsqrt ((segmentDir u inp).x * (segmentDir u inp).x
        + (segmentDir u inp).y * (segmentDir u inp).y)
      (add_nonneg (mul_self_nonneg _) (mul_self_nonneg _))).2
    simp only [segmentTangent]
    generalize sqrt ((segmentDir u inp).x * (segmentDir u inp).x
        + (segmentDir u inp).y * (segmentDir u inp).y) = len at hpos hsq ⊢
    have hlen0 : len ≠ 0 := hpos.ne.symm
    field_simp
    linear_combination -hsq
  · obtain ⟨hl, -⟩ := pixelNormal_eq sqrt hsqrt u.resolution _ _ hrx hry hne
    have hlen := pixelLength_eq sqrt hsqrt u.resolution
      (clipSegment u inp.instanceStart inp.instanceEnd).1
      (clipSegment u inp.instanceStart inp.instanceEnd).2 hry
    have hpos : 0 < sqrt ((segmentDir u inp).x * (segmentDir u inp).x
        + (segmentDir u inp).y * (segmentDir u inp).y) := by
      simp only [segmentDir]
      rw [hlen]
      exact mul_pos (by linarith) hl
    refine ⟨_, hpos, ?_, ?_⟩
    · simp only [segmentTangent]
      field_simp
    · simp only [segmentTangent]
      field_simp

/-- The clip-space endpoints of the sample cap vertex under the orthographic uniforms. -/
theorem clipSegment_capVertex :
    clipSegment (orthographicUniforms : VertUniforms ℝ) (capVertex : VertIn ℝ).instanceStart
      (capVertex : VertIn ℝ).instanceEnd = (⟨-1, 0, -1, 1⟩, ⟨1, 0, 1, 1⟩) := by
  simp [clipSegment, cameraSegment, trimStage, cameraEndpoints, orthographicUniforms,
    capVertex, Mat4.mul, Mat4.mulVec, tiltView, identity4, Mat4.ofColumns, Vec4.get]

/-- Witness of C18 over the reals with `Real.sqrt`: the cap vertex `(1, -1, 0)` of the
segment `(-1, 0) -> (1, 0)`, orthographic uniforms, 800 x 600 viewport, `linewidth = 4`. -/
theorem square_caps_witness :
    ((∀ x : ℝ, 0 ≤ x → 0 ≤ Real.sqrt x ∧ Real.sqrt x * Real.sqrt x = x) ∧
      0 < (orthographicUniforms : VertUniforms ℝ).resolution.x ∧
      0 < (orthographicUniforms : VertUniforms ℝ).resolution.y ∧
      (clipSegment (orthographicUniforms : VertUniforms ℝ)
        (capVertex : VertIn ℝ).instanceStart (capVertex : VertIn ℝ).instanceEnd).1.w ≠ 0 ∧
      (clipSegment (orthographicUniforms : VertUniforms ℝ)
        (capVertex : VertIn ℝ).instanceStart (capVertex : VertIn ℝ).instanceEnd).2.w ≠ 0 ∧
      ndcXY (clipSegment (orthographicUniforms : VertUniforms ℝ)
          (capVertex : VertIn ℝ).instanceStart (capVertex : VertIn ℝ).instanceEnd).1
        ≠ ndcXY (clipSegment (orthographicUniforms : VertUniforms ℝ)
          (capVertex : VertIn ℝ).instanceStart (capVertex : VertIn ℝ).instanceEnd).2 ∧
      (capVertex : VertIn ℝ).position.y < 0) ∧
    (((capVertex : VertIn ℝ).position.y < 0 →
      selectedPixel (orthographicUniforms : VertUniforms ℝ)
            (capVertex : VertIn ℝ) = startPixel (orthographicUniforms : VertUniforms ℝ)
            (capVertex : VertIn ℝ) ∧
      (vertexPixel Real.sqrt (orthographicUniforms : VertUniforms ℝ)
            (capVertex : VertIn ℝ)).x - (startPixel (orthographicUniforms : VertUniforms ℝ)
            (capVertex : VertIn ℝ)).x
        = (if (capVertex : VertIn ℝ).position.x < 0 then -1 else 1) *
            ((orthographicUniforms : VertUniforms ℝ).linewidth / 2)
            * (segmentNormal Real.sqrt (orthographicUniforms : VertUniforms ℝ)
            (capVertex : VertIn ℝ)).x
          - (orthographicUniforms : VertUniforms ℝ).linewidth / 2 * (segmentTangent Real.sqrt
              (orthographicUniforms : VertUniforms ℝ)
            (capVertex : VertIn ℝ)).x ∧
      (vertexPixel Real.sqrt (orthographicUniforms : VertUniforms ℝ)
            (capVertex : VertIn ℝ)).y - (startPixel (orthographicUniforms : VertUniforms ℝ)
            (capVertex : VertIn ℝ)).y
        = (if (capVertex : VertIn ℝ).position.x < 0 then -1 else 1) *
            ((orthographicUniforms : VertUniforms ℝ).linewidth / 2)
            * (segmentNormal Real.sqrt (orthographicUniforms : VertUniforms ℝ)
            (capVertex : VertIn ℝ)).y
          - (orthographicUniforms : VertUniforms ℝ).linewidth / 2 * (segmentTangent Real.sqrt
              (orthographicUniforms : VertUniforms ℝ)
            (capVertex : VertIn ℝ)).y) ∧
    (1 < (capVertex : VertIn ℝ).position.y →
      selectedPixel (orthographicUniforms : VertUniforms ℝ)
            (capVertex : VertIn ℝ) = endPixel (orthographicUniforms : VertUniforms ℝ)
            (capVertex : VertIn ℝ) ∧
      (vertexPixel Real.sqrt (orthographicUniforms : VertUniforms ℝ)
            (capVertex : VertIn ℝ)).x - (endPixel (orthographicUniforms : VertUniforms ℝ)
            (capVertex : VertIn ℝ)).x
        = (if (capVertex : VertIn ℝ).position.x < 0 then -1 else 1) *
            ((orthographicUniforms : VertUniforms ℝ).linewidth / 2)
            * (segmentNormal Real.sqrt (orthographicUniforms : VertUniforms ℝ)
            (capVertex : VertIn ℝ)).x
          + (orthographicUniforms : VertUniforms ℝ).linewidth / 2 * (segmentTangent Real.sqrt
              (orthographicUniforms : VertUniforms ℝ)
            (capVertex : VertIn ℝ)).x ∧
      (vertexPixel Real.sqrt (orthographicUniforms : VertUniforms ℝ)
            (capVertex : VertIn ℝ)).y - (endPixel (orthographicUniforms : VertUniforms ℝ)
            (capVertex : VertIn ℝ)).y
        = (if (capVertex : VertIn ℝ).position.x < 0 then -1 else 1) *
            ((orthographicUniforms : VertUniforms ℝ).linewidth / 2)
            * (segmentNormal Real.sqrt (orthographicUniforms : VertUniforms ℝ)
            (capVertex : VertIn ℝ)).y
          + (orthographicUniforms : VertUniforms ℝ).linewidth / 2 * (segmentTangent Real.sqrt
              (orthographicUniforms : VertUniforms ℝ)
            (capVertex : VertIn ℝ)).y) ∧
    (0 ≤ (capVertex : VertIn ℝ).position.y → (capVertex : VertIn ℝ).position.y ≤ 1 →
      (vertexPixel Real.sqrt (orthographicUniforms : VertUniforms ℝ)
            (capVertex : VertIn ℝ)).x - (selectedPixel (orthographicUniforms : VertUniforms ℝ)
            (capVertex : VertIn ℝ)).x
        = (if (capVertex : VertIn ℝ).position.x < 0 then -1 else 1) *
            ((orthographicUniforms : VertUniforms ℝ).linewidth / 2)
            * (segmentNormal Real.sqrt (orthographicUniforms : VertUniforms ℝ)
            (capVertex : VertIn ℝ)).x ∧
      (vertexPixel Real.sqrt (orthographicUniforms : VertUniforms ℝ)
            (capVertex : VertIn ℝ)).y - (selectedPixel (orthographicUniforms : VertUniforms ℝ)
            (capVertex : VertIn ℝ)).y
        = (if (capVertex : VertIn ℝ).position.x < 0 then -1 else 1) *
            ((orthographicUniforms : VertUniforms ℝ).linewidth / 2)
            * (segmentNormal Real.sqrt (orthographicUniforms : VertUniforms ℝ)
            (capVertex : VertIn ℝ)).y) ∧
    (segmentTangent Real.sqrt (orthographicUniforms : VertUniforms ℝ)
            (capVertex : VertIn ℝ)).x * (segmentTangent Real.sqrt
                (orthographicUniforms : VertUniforms ℝ)
            (capVertex : VertIn ℝ)).x
      + (segmentTangent Real.sqrt (orthographicUniforms : VertUniforms ℝ)
            (capVertex : VertIn ℝ)).y * (segmentTangent Real.sqrt
                (orthographicUniforms : VertUniforms ℝ)
            (capVertex : VertIn ℝ)).y = 1 ∧
    (∃ len : ℝ, 0 < len ∧
      (segmentDir (orthographicUniforms : VertUniforms ℝ)
            (capVertex : VertIn ℝ)).x = len * (segmentTangent Real.sqrt
                (orthographicUniforms : VertUniforms ℝ)
            (capVertex : VertIn ℝ)).x ∧
      (segmentDir (orthographicUniforms : VertUniforms ℝ)
            (capVertex : VertIn ℝ)).y = len * (segmentTangent Real.sqrt
                (orthographicUniforms : VertUniforms ℝ)
            (capVertex : VertIn ℝ)).y)) :=
  ⟨⟨fun x hx => ⟨Real.sqrt_nonneg x, Real.mul_self_sqrt hx⟩,
    by norm_num [orthographicUniforms], by norm_num [orthographicUniforms],
    by rw [clipSegment_capVertex]; norm_num,
    by rw [clipSegment_capVertex]; norm_num,
    by rw [clipSegment_capVertex]; norm_num [ndcXY],
    by norm_num [capVertex]⟩,
   square_caps Real.sqrt
     (fun x hx => ⟨Real.sqrt_nonneg x, Real.mul_self_sqrt hx⟩)
     (orthographicUniforms : VertUniforms ℝ) (capVertex : VertIn ℝ)
     (by norm_num [orthographicUniforms]) (by norm_num [orthographicUniforms])
     (by rw [clipSegment_capVertex]; norm_num)
     (by rw [clipSegment_capVertex]; norm_num)
     (by rw [clipSegment_capVertex]; norm_num [ndcXY])⟩

/-- C8. For a projection matrix with `projection[2][3] != -1` the vertex stage never applies
the near-plane trim: whatever the depths of the endpoints, the `start` and `end` used for
the clip-space projection are `view * model` applied to `(instanceStart, 0, 1)` and
`(instanceEnd, 0, 1)`. -/
theorem orthographic_no_trim (u : VertUniforms K) (instanceStart instanceEnd : Vec2 K)
    (h : u.projection 2 3 ≠ -1) :
    cameraSegment u instanceStart instanceEnd
      = (Mat4.mulVec (Mat4.mul u.view u.model) ⟨instanceStart.x, instanceStart.y, 0, 1⟩,
         Mat4.mulVec (Mat4.mul u.view u.model) ⟨instanceEnd.x, instanceEnd.y, 0, 1⟩) ∧
    clipSegment u instanceStart instanceEnd
      = (Mat4.mulVec u.projection
           (Mat4.mulVec (Mat4.mul u.view u.model) ⟨instanceStart.x, instanceStart.y, 0, 1⟩),
         Mat4.mulVec u.projection
           (Mat4.mulVec (Mat4.mul u.view u.model) ⟨instanceEnd.x, instanceEnd.y, 0, 1⟩)) := by
  have hc : cameraSegment u instanceStart instanceEnd
      = (Mat4.mulVec (Mat4.mul u.view u.model) ⟨instanceStart.x, instanceStart.y, 0, 1⟩,
         Mat4.mulVec (Mat4.mul u.view u.model) ⟨instanceEnd.x, instanceEnd.y, 0, 1⟩) := by
    simp [cameraSegment, trimStage, cameraEndpoints, h]
  exact ⟨hc, by simp [clipSegment, hc]⟩

/-- Witness of C8: the identity projection, endpoints at camera depths `-1` and `+1`. -/
theorem orthographic_no_trim_witness :
    (orthographicUniforms : VertUniforms ℚ).projection 2 3 ≠ -1 ∧
    (cameraSegment (orthographicUniforms : VertUniforms ℚ) ⟨-1, 0⟩ ⟨1, 0⟩
      = (Mat4.mulVec
            (Mat4.mul (orthographicUniforms : VertUniforms ℚ).view
              (orthographicUniforms : VertUniforms ℚ).model)
            ⟨(⟨-1, 0⟩ : Vec2 ℚ).x, (⟨-1, 0⟩ : Vec2 ℚ).y, 0, 1⟩,
         Mat4.mulVec
            (Mat4.mul (orthographicUniforms : VertUniforms ℚ).view
              (orthographicUniforms : VertUniforms ℚ).model)
            ⟨(⟨1, 0⟩ : Vec2 ℚ).x, (⟨1, 0⟩ : Vec2 ℚ).y, 0, 1⟩) ∧
     clipSegment (orthographicUniforms : VertUniforms ℚ) ⟨-1, 0⟩ ⟨1, 0⟩
      = (Mat4.mulVec (orthographicUniforms : VertUniforms ℚ).projection
          (Mat4.mulVec
            (Mat4.mul (orthographicUniforms : VertUniforms ℚ).view
              (orthographicUniforms : VertUniforms ℚ).model)
            ⟨(⟨-1, 0⟩ : Vec2 ℚ).x, (⟨-1, 0⟩ : Vec2 ℚ).y, 0, 1⟩),
         Mat4.mulVec (orthographicUniforms : VertUniforms ℚ).projection
          (Mat4.mulVec
            (Mat4.mul (orthographicUniforms : VertUniforms ℚ).view
              (orthographicUniforms : VertUniforms ℚ).model)
            ⟨(⟨1, 0⟩ : Vec2 ℚ).x, (⟨1, 0⟩ : Vec2 ℚ).y, 0, 1⟩))) :=
  ⟨by norm_num [orthographicUniforms, identity4, Mat4.ofColumns, Vec4.get],
   orthographic_no_trim (orthographicUniforms : VertUniforms ℚ) ⟨-1, 0⟩ ⟨1, 0⟩
     (by norm_num [orthographicUniforms, identity4, Mat4.ofColumns, Vec4.get])⟩

/-- C9. For a perspective projection (`projection[2][3] == -1`, `projection[2][2] != 0`)
and a segment with one endpoint at camera-space `z < 0` and the other at `z >= 0`, the
vertex stage trims one endpoint, and the camera-space `z` of the trimmed endpoint is
`nearEstimate = -0.5 * projection[3][2] / projection[2][2]`: when `start.z < 0 <= end.z`
the trimmed endpoint is `end`, when `end.z < 0 <= start.z` it is `start`. -/
theorem trimmed_z_eq_nearEstimate (u : VertUniforms K) (instanceStart instanceEnd : Vec2 K)
    (hp : u.projection 2 3 = -1) (_ha : u.projection 2 2 ≠ 0)
    (hz : ((cameraEndpoints u instanceStart instanceEnd).1.z < 0 ∧
            0 ≤ (cameraEndpoints u instanceStart instanceEnd).2.z) ∨
          ((cameraEndpoints u instanceStart instanceEnd).2.z < 0 ∧
            0 ≤ (cameraEndpoints u instanceStart instanceEnd).1.z)) :
    ((cameraEndpoints u instanceStart instanceEnd).1.z < 0 →
      (cameraSegment u instanceStart instanceEnd).2.z = nearEstimate u.projection) ∧
    ((cameraEndpoints u instanceStart instanceEnd).2.z < 0 →
      (cameraSegment u instanceStart instanceEnd).1.z = nearEstimate u.projection) := by
  generalize hse : cameraEndpoints u instanceStart instanceEnd = se at hz
  obtain ⟨s, e⟩ := se
  simp only [cameraSegment, hse, trimStage, hp, decide_True, if_true]
  simp only at hz
  rcases hz with ⟨h1, h2⟩ | ⟨h1, h2⟩
  · have hne : e.z - s.z ≠ 0 := by linarith
    refine ⟨fun _ => ?_, fun h => absurd h (not_lt.mpr h2)⟩
    rw [if_pos ⟨h1, h2⟩]
    simp only [trimSegment, mix]
    field_simp
    ring
  · have hne : s.z - e.z ≠ 0 := by linarith
    refine ⟨fun h => absurd h (not_lt.mpr h2), fun _ => ?_⟩
    rw [if_neg (fun c => absurd c.1 (not_lt.mpr h2)), if_pos ⟨h1, h2⟩]
    simp only [trimSegment, mix]
    field_simp
    ring

/-- The camera-space endpoints of the sample segment `(-1, 0) -> (1, 0)` under the tilted
view: depths `-1` and `+1`. -/
theorem cameraEndpoints_sample :
    cameraEndpoints (perspectiveUniforms : VertUniforms ℚ) ⟨-1, 0⟩ ⟨1, 0⟩
      = (⟨-1, 0, -1, 1⟩, ⟨1, 0, 1, 1⟩) := by
  simp [cameraEndpoints, perspectiveUniforms, Mat4.mul, Mat4.mulVec, tiltView, identity4,
    Mat4.ofColumns, Vec4.get]

/-- Witness of C9: perspective projection, endpoints at camera depths `z = -1` and
`z = +1`. -/
theorem trimmed_z_eq_nearEstimate_witness :
    ((perspectiveUniforms : VertUniforms ℚ).projection 2 3 = -1 ∧
      (perspectiveUniforms : VertUniforms ℚ).projection 2 2 ≠ 0 ∧
      (cameraEndpoints (perspectiveUniforms : VertUniforms ℚ) ⟨-1, 0⟩ ⟨1, 0⟩).1.z = -1 ∧
      (cameraEndpoints (perspectiveUniforms : VertUniforms ℚ) ⟨-1, 0⟩ ⟨1, 0⟩).2.z = 1) ∧
    (((cameraEndpoints (perspectiveUniforms : VertUniforms ℚ) ⟨-1, 0⟩ ⟨1, 0⟩).1.z < 0 →
      (cameraSegment (perspectiveUniforms : VertUniforms ℚ) ⟨-1, 0⟩ ⟨1, 0⟩).2.z
        = nearEstimate (perspectiveUniforms : VertUniforms ℚ).projection) ∧
     ((cameraEndpoints (perspectiveUniforms : VertUniforms ℚ) ⟨-1, 0⟩ ⟨1, 0⟩).2.z < 0 →
      (cameraSegment (perspectiveUniforms : VertUniforms ℚ) ⟨-1, 0⟩ ⟨1, 0⟩).1.z
        = nearEstimate (perspectiveUniforms : VertUniforms ℚ).projection)) :=
  ⟨⟨by norm_num [perspectiveUniforms, perspective4, Mat4.ofColumns, Vec4.get],
    by norm_num [perspectiveUniforms, perspective4, Mat4.ofColumns, Vec4.get],
    by rw [cameraEndpoints_sample],
    by rw [cameraEndpoints_sample]⟩,
   trimmed_z_eq_nearEstimate (perspectiveUniforms : VertUniforms ℚ) ⟨-1, 0⟩ ⟨1, 0⟩
     (by norm_num [perspectiveUniforms, perspective4, Mat4.ofColumns, Vec4.get])
     (by norm_num [perspectiveUniforms, perspective4, Mat4.ofColumns, Vec4.get])
     (Or.inl (by rw [cameraEndpoints_sample]; norm_num))⟩

/-- C15 (counterexample). Perspective projection, `start` at camera depth `z = -1` and
`end` at `z = +1`: the endpoint with `z < 0` is left unchanged and the endpoint with
`z >= 0` is the one replaced, by `(-1/2, 0, -1/2, 1)`. -/
theorem trim_keeps_negative_endpoint :
    (perspectiveUniforms : VertUniforms ℚ).projection 2 3 = -1 ∧
    (cameraEndpoints (perspectiveUniforms : VertUniforms ℚ) ⟨-1, 0⟩ ⟨1, 0⟩).1.z < 0 ∧
    0 ≤ (cameraEndpoints (perspectiveUniforms : VertUniforms ℚ) ⟨-1, 0⟩ ⟨1, 0⟩).2.z ∧
    (cameraSegment (perspectiveUniforms : VertUniforms ℚ) ⟨-1, 0⟩ ⟨1, 0⟩).1
      = (cameraEndpoints (perspectiveUniforms : VertUniforms ℚ) ⟨-1, 0⟩ ⟨1, 0⟩).1 ∧
    (cameraSegment (perspectiveUniforms : VertUniforms ℚ) ⟨-1, 0⟩ ⟨1, 0⟩).2
        = ⟨-1 / 2, 0, -1 / 2, 1⟩ ∧
    (cameraSegment (perspectiveUniforms : VertUniforms ℚ) ⟨-1, 0⟩ ⟨1, 0⟩).2
      ≠ (cameraEndpoints (perspectiveUniforms : VertUniforms ℚ) ⟨-1, 0⟩ ⟨1, 0⟩).2 := by
  have hc : cameraSegment (perspectiveUniforms : VertUniforms ℚ) ⟨-1, 0⟩ ⟨1, 0⟩
      = (⟨-1, 0, -1, 1⟩, ⟨-1 / 2, 0, -1 / 2, 1⟩) := by
    simp only [cameraSegment, cameraEndpoints_sample]
    norm_num [trimStage, trimSegment, nearEstimate, mix, perspectiveUniforms, perspective4,
      Mat4.ofColumns, Vec4.get]
  rw [hc, cameraEndpoints_sample]
  norm_num [perspectiveUniforms, perspective4, Mat4.ofColumns, Vec4.get]

/-- C15 (amended). For a perspective projection (`projection[2][3] == -1`) and a segment
with exactly one endpoint at camera-space `z < 0` and the other at `z >= 0`, the endpoint
with `z >= 0` is the one replaced, by `trimSegment` of the two endpoints (the point
interpolated along the segment from the other endpoint), and the endpoint with `z < 0` is
left unchanged. -/
theorem trim_replaces_nonnegative_endpoint (u : VertUniforms K)
    (instanceStart instanceEnd : Vec2 K) (hp : u.projection 2 3 = -1)
    (hz : ((cameraEndpoints u instanceStart instanceEnd).1.z < 0 ∧
            0 ≤ (cameraEndpoints u instanceStart instanceEnd).2.z) ∨
          ((cameraEndpoints u instanceStart instanceEnd).2.z < 0 ∧
            0 ≤ (cameraEndpoints u instanceStart instanceEnd).1.z)) :
    ((cameraEndpoints u instanceStart instanceEnd).1.z < 0 →
      (cameraSegment u instanceStart instanceEnd).1
        = (cameraEndpoints u instanceStart instanceEnd).1 ∧
      (cameraSegment u instanceStart instanceEnd).2
        = trimSegment u.projection (cameraEndpoints u instanceStart instanceEnd).1
            (cameraEndpoints u instanceStart instanceEnd).2) ∧
    ((cameraEndpoints u instanceStart instanceEnd).2.z < 0 →
      (cameraSegment u instanceStart instanceEnd).2
        = (cameraEndpoints u instanceStart instanceEnd).2 ∧
      (cameraSegment u instanceStart instanceEnd).1
        = trimSegment u.projection (cameraEndpoints u instanceStart instanceEnd).2
            (cameraEndpoints u instanceStart instanceEnd).1) := by
  generalize hse : cameraEndpoints u instanceStart instanceEnd = se at hz
  obtain ⟨s, e⟩ := se
  simp only [cameraSegment, hse, trimStage, hp, decide_True, if_true]
  simp only at hz
  rcases hz with ⟨h1, h2⟩ | ⟨h1, h2⟩
  · refine ⟨fun _ => ?_, fun h => absurd h (not_lt.mpr h2)⟩
    rw [if_pos ⟨h1, h2⟩]
    exact ⟨rfl, rfl⟩
  · refine ⟨fun h => absurd h (not_lt.mpr h2), fun _ => ?_⟩
    rw [if_neg (fun c => absurd c.1 (not_lt.mpr h2)), if_pos ⟨h1, h2⟩]
    exact ⟨rfl, rfl⟩

/-- Witness of the amended C15: perspective projection, `start` at depth `-1`, `end` at
depth `+1`. -/
theorem trim_replaces_nonnegative_endpoint_witness :
    ((perspectiveUniforms : VertUniforms ℚ).projection 2 3 = -1 ∧
      (cameraEndpoints (perspectiveUniforms : VertUniforms ℚ) ⟨-1, 0⟩ ⟨1, 0⟩).1.z < 0 ∧
      0 ≤ (cameraEndpoints (perspectiveUniforms : VertUniforms ℚ) ⟨-1, 0⟩ ⟨1, 0⟩).2.z) ∧
    (((cameraEndpoints (perspectiveUniforms : VertUniforms ℚ) ⟨-1, 0⟩ ⟨1, 0⟩).1.z < 0 →
      (cameraSegment (perspectiveUniforms : VertUniforms ℚ) ⟨-1, 0⟩ ⟨1, 0⟩).1
        = (cameraEndpoints (perspectiveUniforms : VertUniforms ℚ) ⟨-1, 0⟩ ⟨1, 0⟩).1 ∧
      (cameraSegment (perspectiveUniforms : VertUniforms ℚ) ⟨-1, 0⟩ ⟨1, 0⟩).2
        = trimSegment (perspectiveUniforms : VertUniforms ℚ).projection
            (cameraEndpoints (perspectiveUniforms : VertUniforms ℚ) ⟨-1, 0⟩ ⟨1, 0⟩).1
            (cameraEndpoints (perspectiveUniforms : VertUniforms ℚ) ⟨-1, 0⟩ ⟨1, 0⟩).2) ∧
     ((cameraEndpoints (perspectiveUniforms : VertUniforms ℚ) ⟨-1, 0⟩ ⟨1, 0⟩).2.z < 0 →
      (cameraSegment (perspectiveUniforms : VertUniforms ℚ) ⟨-1, 0⟩ ⟨1, 0⟩).2
        = (cameraEndpoints (perspectiveUniforms : VertUniforms ℚ) ⟨-1, 0⟩ ⟨1, 0⟩).2 ∧
      (cameraSegment (perspectiveUniforms : VertUniforms ℚ) ⟨-1, 0⟩ ⟨1, 0⟩).1
        = trimSegment (perspectiveUniforms : VertUniforms ℚ).projection
            (cameraEndpoints (perspectiveUniforms : VertUniforms ℚ) ⟨-1, 0⟩ ⟨1, 0⟩).2
            (cameraEndpoints (perspectiveUniforms : VertUniforms ℚ) ⟨-1, 0⟩ ⟨1, 0⟩).1)) :=
  ⟨⟨by norm_num [perspectiveUniforms, perspective4, Mat4.ofColumns, Vec4.get],
    by rw [cameraEndpoints_sample]; norm_num,
    by rw [cameraEndpoints_sample]; norm_num⟩,
   trim_replaces_nonnegative_endpoint (perspectiveUniforms : VertUniforms ℚ) ⟨-1, 0⟩ ⟨1, 0⟩
     (by norm_num [perspectiveUniforms, perspective4, Mat4.ofColumns, Vec4.get])
     (Or.inl (by rw [cameraEndpoints_sample]; norm_num))⟩

/-- C16. The near-plane trim is symmetric in the two endpoints: for every projection matrix
and all camera-space points `P`, `Q`, if the trim stage on `(start = P, end = Q)` yields
`(P', Q')`, then on `(start = Q, end = P)` it yields `(Q', P')`. -/
theorem trimStage_swap (projection : Mat4 K) (P Q : Vec4 K) :
    trimStage projection Q P
      = ((trimStage projection P Q).2, (trimStage projection P Q).1) := by
  simp only [trimStage]
  by_cases hp : projection 2 3 = -1
  · simp only [hp, decide_True, if_true]
    by_cases h1 : P.z < 0 ∧ Q.z ≥ 0
    · have h2 : ¬ (Q.z < 0 ∧ P.z ≥ 0) := fun c => absurd c.1 (not_lt.mpr h1.2)
      simp only [if_pos h1, if_neg h2]
    · by_cases h2 : Q.z < 0 ∧ P.z ≥ 0
      · simp only [if_neg h1, if_pos h2]
      · simp only [if_neg h1, if_neg h2]
  · simp [hp]

/-- C10. For a fragment with `|vUv.y| <= 1` the alpha output by the fragment stage is
`opacity`, for every `vUv.x` and every value `dlen` of `fwidth(len2)`. -/
theorem body_alpha_eq_opacity (u : FragUniforms K) (vUv : Vec2 K) (dlen : K)
    (h : |vUv.y| ≤ 1) :
    (LINES_FRAG_main u vUv dlen).w = u.opacity := by
  simp [LINES_FRAG_main, not_lt.mpr h]

/-- Witness of C10: a fragment on the edge of the body, `vUv = (1/2, 1)`, with
`opacity = 3/4`. -/
theorem body_alpha_eq_opacity_witness :
    |(⟨1 / 2, 1⟩ : Vec2 ℚ).y| ≤ 1 ∧
    (LINES_FRAG_main (⟨⟨1, 0, 0⟩, 3 / 4⟩ : FragUniforms ℚ) ⟨1 / 2, 1⟩ (1 / 10)).w
      = (⟨⟨1, 0, 0⟩, 3 / 4⟩ : FragUniforms ℚ).opacity :=
  ⟨by norm_num, body_alpha_eq_opacity ⟨⟨1, 0, 0⟩, 3 / 4⟩ ⟨1 / 2, 1⟩ (1 / 10) (by norm_num)⟩

/-- The cubic of `smoothstep` stays in `[0, 1]` on `[0, 1]`. -/
theorem smoothstep_mem_unit (edge0 edge1 x : K) :
    0 ≤ smoothstep edge0 edge1 x ∧ smoothstep edge0 edge1 x ≤ 1 := by
  simp only [smoothstep, clamp]
  generalize (x - edge0) / (edge1 - edge0) = r
  have h0 : 0 ≤ min (max r 0) 1 := le_min (le_max_right r 0) zero_le_one
  have h1 : min (max r 0) 1 ≤ 1 := min_le_right _ _
  generalize min (max r 0) 1 = t at h0 h1
  constructor
  · have : 0 ≤ 3 - 2 * t := by linarith
    exact mul_nonneg (mul_nonneg h0 h0) this
  · have h2 : 0 ≤ (1 - t) * (1 - t) * (1 + 2 * t) :=
      mul_nonneg (mul_self_nonneg (1 - t)) (by linarith)
    have e : 1 - t * t * (3 - 2 * t) = (1 - t) * (1 - t) * (1 + 2 * t) := by ring
    linarith

/-- Below the lower edge `smoothstep` is `0`, above the upper edge it is `1`. -/
theorem smoothstep_edges (edge0 edge1 x : K) (h : edge0 < edge1) :
    (x ≤ edge0 → smoothstep edge0 edge1 x = 0) ∧
    (edge1 ≤ x → smoothstep edge0 edge1 x = 1) := by
  have hd : 0 < edge1 - edge0 := by linarith
  constructor
  · intro hx
    have hr : (x - edge0) / (edge1 - edge0) ≤ 0 :=
      div_nonpos_of_nonpos_of_nonneg (by linarith) hd.le
    simp [smoothstep, clamp, max_eq_right hr]
  · intro hx
    have hr : 1 ≤ (x - edge0) / (edge1 - edge0) := by
      rw [le_div_iff₀ hd]
      linarith
    have hm : max ((x - edge0) / (edge1 - edge0)) 0 = (x - edge0) / (edge1 - edge0) :=
      max_eq_left (by linarith)
    simp only [smoothstep, clamp, hm, min_eq_right hr]
    ring

/-- The local `len2` is `vUv.x^2 + (|vUv.y| - 1)^2`. -/
theorem fragLen2_cap (vUv : Vec2 K) :
    fragLen2 vUv = vUv.x * vUv.x + (|vUv.y| - 1) * (|vUv.y| - 1) := by
  simp only [fragLen2]
  by_cases hy : vUv.y > 0
  · rw [if_pos hy, abs_of_pos hy]
  · have hy0 : vUv.y ≤ 0 := not_lt.mp hy
    rw [if_neg hy, abs_of_nonpos hy0]
    ring

/-- C11 (code defect). Evaluation of the fragment stage on the cap fragment `vUv = (0, 2)`,
which lies on the cap boundary (`len2 = 1`), with `dlen = 1/10` and `opacity = 1/2`: the
alpha is `1/2`, the bare smoothstep midpoint, not `1/2 * opacity = 1/4`. -/
theorem cap_boundary_alpha_half :
    1 < |(⟨0, 2⟩ : Vec2 ℚ).y| ∧ fragLen2 (⟨0, 2⟩ : Vec2 ℚ) = 1 ∧
    (LINES_FRAG_main (⟨⟨1, 0, 0⟩, 1 / 2⟩ : FragUniforms ℚ) ⟨0, 2⟩ (1 / 10)).w = 1 / 2 ∧
    (LINES_FRAG_main (⟨⟨1, 0, 0⟩, 1 / 2⟩ : FragUniforms ℚ) ⟨0, 2⟩ (1 / 10)).w
      ≠ 1 / 2 * (⟨⟨1, 0, 0⟩, 1 / 2⟩ : FragUniforms ℚ).opacity := by
  norm_num [LINES_FRAG_main, fragLen2, smoothstep, clamp]

/-- C20. For a cap fragment (`|vUv.y| > 1`) with `dlen > 0`, the alpha output by the
fragment stage is `1 - smoothstep(1 - dlen, 1 + dlen, len2)` with
`len2 = vUv.x^2 + (|vUv.y| - 1)^2`; it lies in `[0, 1]`, is `1` when `len2 <= 1 - dlen`,
is `0` when `len2 >= 1 + dlen`, and is the same for every value of the uniforms, `opacity`
included. -/
theorem cap_alpha_smoothstep (u : FragUniforms K) (vUv : Vec2 K) (dlen : K)
    (hcap : 1 < |vUv.y|) (hd : 0 < dlen) :
    (LINES_FRAG_main u vUv dlen).w
      = 1 - smoothstep (1 - dlen) (1 + dlen)
          (vUv.x * vUv.x + (|vUv.y| - 1) * (|vUv.y| - 1)) ∧
    0 ≤ (LINES_FRAG_main u vUv dlen).w ∧
    (LINES_FRAG_main u vUv dlen).w ≤ 1 ∧
    (vUv.x * vUv.x + (|vUv.y| - 1) * (|vUv.y| - 1) ≤ 1 - dlen →
      (LINES_FRAG_main u vUv dlen).w = 1) ∧
    (1 + dlen ≤ vUv.x * vUv.x + (|vUv.y| - 1) * (|vUv.y| - 1) →
      (LINES_FRAG_main u vUv dlen).w = 0) ∧
    (∀ other : FragUniforms K,
      (LINES_FRAG_main other vUv dlen).w = (LINES_FRAG_main u vUv dlen).w) := by
  have hw : ∀ v : FragUniforms K, (LINES_FRAG_main v vUv dlen).w
      = 1 - smoothstep (1 - dlen) (1 + dlen)
          (vUv.x * vUv.x + (|vUv.y| - 1) * (|vUv.y| - 1)) := by
    intro v
    have h := fragLen2_cap vUv
    simp only [fragLen2] at h
    simp only [LINES_FRAG_main, gt_iff_lt, if_pos hcap]
    simp only [gt_iff_lt] at h
    rw [h]
  have hb := smoothstep_mem_unit (1 - dlen) (1 + dlen)
    (vUv.x * vUv.x + (|vUv.y| - 1) * (|vUv.y| - 1))
  have he := smoothstep_edges (1 - dlen) (1 + dlen)
    (vUv.x * vUv.x + (|vUv.y| - 1) * (|vUv.y| - 1)) (by linarith)
  refine ⟨hw u, ?_, ?_, ?_, ?_, ?_⟩
  · rw [hw u]; linarith [hb.2]
  · rw [hw u]; linarith [hb.1]
  · intro h; rw [hw u, he.1 h]; ring
  · intro h; rw [hw u, he.2 h]; ring
  · intro other; rw [hw other, hw u]

/-- Witness of C20: the cap fragment `vUv = (1/2, 3/2)` with `dlen = 1/10`. -/
theorem cap_alpha_smoothstep_witness :
    (1 < |(⟨1 / 2, 3 / 2⟩ : Vec2 ℚ).y| ∧ (0 : ℚ) < 1 / 10) ∧
    ((LINES_FRAG_main (⟨⟨1, 0, 0⟩, 3 / 4⟩ : FragUniforms ℚ) ⟨1 / 2, 3 / 2⟩ (1 / 10)).w
      = 1 - smoothstep (1 - 1 / 10) (1 + 1 / 10)
          ((⟨1 / 2, 3 / 2⟩ : Vec2 ℚ).x * (⟨1 / 2, 3 / 2⟩ : Vec2 ℚ).x
            + (|(⟨1 / 2, 3 / 2⟩ : Vec2 ℚ).y| - 1) * (|(⟨1 / 2, 3 / 2⟩ : Vec2 ℚ).y| - 1)) ∧
    0 ≤ (LINES_FRAG_main (⟨⟨1, 0, 0⟩, 3 / 4⟩ : FragUniforms ℚ) ⟨1 / 2, 3 / 2⟩ (1 / 10)).w ∧
    (LINES_FRAG_main (⟨⟨1, 0, 0⟩, 3 / 4⟩ : FragUniforms ℚ) ⟨1 / 2, 3 / 2⟩ (1 / 10)).w ≤ 1 ∧
    ((⟨1 / 2, 3 / 2⟩ : Vec2 ℚ).x * (⟨1 / 2, 3 / 2⟩ : Vec2 ℚ).x
        + (|(⟨1 / 2, 3 / 2⟩ : Vec2 ℚ).y| - 1) * (|(⟨1 / 2, 3 / 2⟩ : Vec2 ℚ).y| - 1)
        ≤ 1 - 1 / 10 →
      (LINES_FRAG_main (⟨⟨1, 0, 0⟩, 3 / 4⟩ : FragUniforms ℚ) ⟨1 / 2, 3 / 2⟩ (1 / 10)).w = 1) ∧
    (1 + 1 / 10 ≤ (⟨1 / 2, 3 / 2⟩ : Vec2 ℚ).x * (⟨1 / 2, 3 / 2⟩ : Vec2 ℚ).x
        + (|(⟨1 / 2, 3 / 2⟩ : Vec2 ℚ).y| - 1) * (|(⟨1 / 2, 3 / 2⟩ : Vec2 ℚ).y| - 1) →
      (LINES_FRAG_main (⟨⟨1, 0, 0⟩, 3 / 4⟩ : FragUniforms ℚ) ⟨1 / 2, 3 / 2⟩ (1 / 10)).w = 0) ∧
    (∀ other : FragUniforms ℚ,
      (LINES_FRAG_main other ⟨1 / 2, 3 / 2⟩ (1 / 10)).w
        = (LINES_FRAG_main (⟨⟨1, 0, 0⟩, 3 / 4⟩ : FragUniforms ℚ) ⟨1 / 2, 3 / 2⟩ (1 / 10)).w)) :=
  ⟨⟨lt_abs.2 (Or.inl (by norm_num)), by norm_num⟩,
   cap_alpha_smoothstep ⟨⟨1, 0, 0⟩, 3 / 4⟩ ⟨1 / 2, 3 / 2⟩ (1 / 10)
     (lt_abs.2 (Or.inl (by norm_num))) (by norm_num)⟩

end ShaderClaims

end Lines
